import Mathlib

set_option maxRecDepth 4000

/-!
Verification development for the CodeLab markdown-command extension
(command parser, answer-key resolver/validator, quiz parser, and the
preview render pipeline).  JavaScript strings are embedded as `String`
(`List Char` underneath); machine behaviour such as first-occurrence
`String.prototype.replace`, `\s` classes and entity escaping is spelled
out definitionally.
-/

namespace Codelab

/-- JavaScript whitespace: the characters matched by the `\s` regex class
and removed by `String.prototype.trim` (ASCII subset plus NBSP and BOM,
which covers every character the repository's documents use). -/
def jsWs (c : Char) : Bool :=
  c = ' ' || c = '\t' || c = '\n' || c = '\r' || c = '\x0b' || c = '\x0c' ||
  c = ' ' || c = '﻿'

/-- List-level `String.prototype.trim`: drop leading and trailing
JavaScript whitespace. -/
def jsTrimList (l : List Char) : List Char :=
  ((l.dropWhile jsWs).reverse.dropWhile jsWs).reverse

/-- `String.prototype.trim`. -/
def jsTrim (s : String) : String := ⟨jsTrimList s.data⟩

/-- `String.prototype.toLowerCase` (ASCII case mapping, which is what the
answer strings in this repository exercise). -/
def jsToLower (s : String) : String := ⟨s.data.map Char.toLower⟩

/-! ## Answer keys (`src/src/answerKeyLoader.ts`) -/

/-- Shape of the `correct` field of one answer-key entry: in the source
`Answer.correct : string | string[]`. -/
inductive CorrectField where
  | one : String → CorrectField
  | many : List String → CorrectField
deriving DecidableEq

/-- One answer-key entry (`types/quiz.Answer`): `correct`, optional
`explanation`, optional `alternatives`, optional `caseSensitive`. -/
structure Answer where
  correct : CorrectField
  explanation : Option String
  alternatives : Option (List String)
  caseSensitive : Option Bool
deriving DecidableEq

/-- An answer key: `answers` maps question ids to entries (a JavaScript
object, embedded as an association list with unique keys). -/
structure AnswerKey where
  answers : List (String × Answer)
deriving DecidableEq

/-- Property lookup `answerKey.answers[questionId]`. -/
def lookupAnswer (k : AnswerKey) (qid : String) : Option Answer :=
  (k.answers.find? (fun p => p.1 = qid)).map (·.2)

/-- The `normalizeAnswer` closure of `AnswerKeyLoader.validateAnswer`
(answerKeyLoader.ts lines 92–97): lowercase then trim when the entry has
`caseSensitive === false`; otherwise trim only. -/
def normalizeAnswer (caseSensitive : Option Bool) (ans : String) : String :=
  if caseSensitive = some false then jsTrim (jsToLower ans) else jsTrim ans

/-- A user answer as received by `validateAnswer`:
`userAnswer : string | string[]`. -/
inductive UserAnswer where
  | str : String → UserAnswer
  | arr : List String → UserAnswer

/-- Result record of `validateAnswer`. -/
structure VResult where
  correct : Bool
  explanation : Option String
  correctAnswer : Option CorrectField
deriving DecidableEq

/-- `AnswerKeyLoader.validateAnswer` (answerKeyLoader.ts lines 79–128).
Returns `none` exactly where the JavaScript would throw: a single-string
`correct` entry combined with an empty user-answer array makes
`userAnswers[0]` `undefined`, and `normalizeAnswer` then calls a method on
`undefined`. -/
def validateAnswer (questionId : String) (userAnswer : UserAnswer)
    (answerKey : Option AnswerKey) : Option VResult :=
  match answerKey.bind (fun k => lookupAnswer k questionId) with
  | none => some ⟨false, some "No answer key found for this question", none⟩
  | some answer =>
    let userAnswers : List String :=
      match userAnswer with
      | .str s => [s]
      | .arr l => l
    match answer.correct with
    | .many correctList =>
        -- For multiple correct answers, check if user selected all correct ones
        let normalizedCorrect := correctList.map (normalizeAnswer answer.caseSensitive)
        let normalizedUser := userAnswers.map (normalizeAnswer answer.caseSensitive)
        let correct := normalizedCorrect.length == normalizedUser.length &&
          normalizedCorrect.all (fun ans => normalizedUser.contains ans)
        some ⟨correct, answer.explanation, some answer.correct⟩
    | .one c =>
        match userAnswers.head? with
        | none => none
        | some u0 =>
            let normalizedUser := normalizeAnswer answer.caseSensitive u0
            let normalizedCorrect := normalizeAnswer answer.caseSensitive c
            let correct0 := normalizedUser == normalizedCorrect
            let correct :=
              if correct0 then true
              else match answer.alternatives with
                | some alts =>
                    (alts.map (normalizeAnswer answer.caseSensitive)).contains normalizedUser
                | none => false
            some ⟨correct, answer.explanation, some answer.correct⟩

/-- Set equality of the normalized user and correct answers — the
comparison the specification's words describe for the multi-answer case
(compared in C5 against what the source computes). -/
def setEqNormalized (cs : Option Bool) (user correctL : List String) : Prop :=
  (user.map (normalizeAnswer cs)).toFinset = (correctL.map (normalizeAnswer cs)).toFinset

/-! ## Answer-key loading (`AnswerKeyLoader.loadAnswerKey`) -/

/-- Substring test: does `pat` occur anywhere in the list? -/
def containsSub (pat : List Char) : List Char → Bool
  | [] => pat.isEmpty
  | c :: t => pat.isPrefixOf (c :: t) || containsSub pat t

/-- First-occurrence replacement, the semantics of JavaScript
`String.prototype.replace` with a plain-string pattern: only the leftmost
occurrence of `pat` is replaced, and the string is returned unchanged when
`pat` does not occur. -/
def replaceFirstL (pat repl : List Char) : List Char → List Char
  | [] => if pat.isPrefixOf ([] : List Char) then repl else []
  | c :: t =>
      if pat.isPrefixOf (c :: t) then repl ++ (c :: t).drop pat.length
      else c :: replaceFirstL pat repl t

/-- String-level first-occurrence `replace`. -/
def jsReplaceFirst (s pat repl : String) : String :=
  ⟨replaceFirstL pat.data repl.data s.data⟩

/-- String-level substring test. -/
def strContains (s pat : String) : Bool := containsSub pat.data s.data

/-- String-level `endsWith`. -/
def jsEndsWith (s pat : String) : Bool := pat.data.isSuffixOf s.data

/-- External collaborators of `AnswerKeyLoader`: the filesystem
(`fs.existsSync`, `fs.readFileSync`) and the YAML/JSON parsers of the
`yaml` package and `JSON.parse`.  A parser returns `none` where the
JavaScript call would throw or produce a falsy value (the loader's
`if (answerKey)` test folds both into "no key"). -/
structure LoaderEnv where
  fsExists : String → Bool
  fsRead : String → String
  yamlParse : String → Option AnswerKey
  jsonParse : String → Option AnswerKey

/-- `AnswerKeyLoader.parseAnswerKey` (answerKeyLoader.ts lines 59–77):
YAML for `.yaml`/`.yml` files; otherwise YAML first with JSON as the
fallback; any parse error is caught and becomes `none`. -/
def parseAnswerKey (env : LoaderEnv) (content filePath : String) : Option AnswerKey :=
  if jsEndsWith filePath ".yaml" || jsEndsWith filePath ".yml" then
    env.yamlParse content
  else
    match env.yamlParse content with
    | some k => some k
    | none => env.jsonParse content

/-- Default candidate paths of `loadAnswerKey` (answerKeyLoader.ts lines
31–35): each is the document path with its FIRST occurrence of the
substring `.mdcl` replaced. -/
def defaultAnswerKeyPaths (mdclPath : String) : List String :=
  [ jsReplaceFirst mdclPath ".mdcl" ".mdclanswer.yaml"
  , jsReplaceFirst mdclPath ".mdcl" ".mdclanswer.yml"
  , jsReplaceFirst mdclPath ".mdcl" ".mdclanswer" ]

/-- `path.dirname` (POSIX): the part before the last slash, `.` when there
is no slash. -/
def pathDirname (p : String) : String :=
  if p.data.contains '/' then
    ⟨((p.data.reverse.dropWhile (· ≠ '/')).drop 1).reverse⟩
  else "."

/-- `path.join` of a directory and a file name (POSIX). -/
def pathJoin (d f : String) : String := d ++ "/" ++ f

/-- Candidate paths for a custom answer-key name (answerKeyLoader.ts lines
23–28). -/
def customAnswerKeyPaths (mdclPath customName : String) : List String :=
  [ pathJoin (pathDirname mdclPath) (customName ++ ".yaml")
  , pathJoin (pathDirname mdclPath) (customName ++ ".yml")
  , pathJoin (pathDirname mdclPath) customName ]

/-- The candidate-scanning loop of `loadAnswerKey` (lines 38–53): take the
first path that exists on disk AND parses to a (truthy) key; existing
candidates that fail to parse are logged and skipped; the loop falls
through to `none`. -/
def tryLoadPaths (env : LoaderEnv) : List String → Option AnswerKey
  | [] => none
  | p :: rest =>
      if env.fsExists p then
        match parseAnswerKey env (env.fsRead p) p with
        | some k => some k
        | none => tryLoadPaths env rest
      else tryLoadPaths env rest

/-- `AnswerKeyLoader.loadAnswerKey` (lines 10–57): cache consultation,
candidate derivation, scan, cache fill.  The promise resolves with the
first component; it never rejects. -/
def loadAnswerKey (env : LoaderEnv) (cache : List (String × AnswerKey))
    (mdclPath : String) (customName : Option String) :
    Option AnswerKey × List (String × AnswerKey) :=
  let cacheKey := match customName with
    | some n => mdclPath ++ ":" ++ n
    | none => mdclPath
  match cache.find? (fun p => p.1 = cacheKey) with
  | some p => (some p.2, cache)
  | none =>
      let possiblePaths := match customName with
        | some n => customAnswerKeyPaths mdclPath n
        | none => defaultAnswerKeyPaths mdclPath
      match tryLoadPaths env possiblePaths with
      | some k => (some k, (cacheKey, k) :: cache)
      | none => (none, cache)

/-- The document path with its final dot-extension removed (unchanged when
the path has no dot). -/
def stripLastExt (p : String) : String :=
  if p.data.contains '.' then
    ⟨((p.data.reverse.dropWhile (· ≠ '.')).drop 1).reverse⟩
  else p

/-- Candidate derivation as the C7 claim words it: replace the document's
EXTENSION with the `.yaml` variant, the `.yml` variant, then the
extension-less answer-key suffix, in that order. -/
def specAnswerKeyPaths (mdclPath : String) : List String :=
  [ stripLastExt mdclPath ++ ".mdclanswer.yaml"
  , stripLastExt mdclPath ++ ".mdclanswer.yml"
  , stripLastExt mdclPath ++ ".mdclanswer" ]

/-! ## Command parser (`src/src/commandParser.ts`)

The source grammar is the regex

    COMMAND_REGEX =
      `([^`]+)`\s*\{\{\s*(execute|copy|open)(?:\s+(?:'([^']+)'|([^\s}]+)))?(?:\s+(interrupt))?\s*\}\}

The matcher below is this regex's JavaScript (backtracking, greedy)
semantics specialised to the pattern.  Every quantifier in the pattern is
forced-maximal: each of `[^`]+`, `[^']+`, `[^\s}]+`, `\s+`, `\s*` is
followed by a literal or class its own class excludes, so taking fewer
characters than the maximal run puts an excluded character where the
continuation needs its first character and the backtrack branch dies
immediately.  Only the ordered choices — the quoted/bare alternation and
the two optional groups — genuinely backtrack, and they are written out
as ordered fallbacks below. -/

/-- Characters of the literal `interrupt`. -/
def interruptChars : List Char := ['i', 'n', 't', 'e', 'r', 'r', 'u', 'p', 't']

/-- The action keyword (group 2); the source stores the matched string
`'execute' | 'copy' | 'open'`. -/
inductive CmdAction where
  | execute : CmdAction
  | copy : CmdAction
  | openFile : CmdAction
deriving DecidableEq

/-- Characters of each action keyword (`openFile` renders as `open`). -/
def actionLit : CmdAction → List Char
  | .execute => ['e', 'x', 'e', 'c', 'u', 't', 'e']
  | .copy => ['c', 'o', 'p', 'y']
  | .openFile => ['o', 'p', 'e', 'n']

/-- One parsed command descriptor (`MDCLCommand` in commandParser.ts,
minus `fullMatch`, which is the matched slice itself).  The source only
ever sets `interrupt` to `true` or leaves it `undefined`, hence
`Option Bool`. -/
structure MDCLCommand where
  line : Nat
  startIndex : Nat
  endIndex : Nat
  command : String
  action : CmdAction
  terminal : Option String
  interrupt : Option Bool
deriving DecidableEq

/-- Capture groups of one successful match of COMMAND_REGEX. -/
structure TagGroups where
  cmd : List Char
  action : CmdAction
  quoted : Option (List Char)
  bare : Option (List Char)
  interruptWord : Bool
deriving DecidableEq

/-- Tail `\s*\}\}` of the pattern: skip whitespace, require the two
closing braces, return the remainder. -/
def finishTail (s : List Char) : Option (List Char) :=
  match s.dropWhile jsWs with
  | '}' :: '}' :: r => some r
  | _ => none

/-- Optional group `(?:\s+(interrupt))?` followed by `\s*\}\}`: the
present branch is tried first, the absent branch on its failure
(greedy `?` with backtracking). -/
def contB (s : List Char) : Option (Bool × List Char) :=
  let present : Option (Bool × List Char) :=
    if (s.takeWhile jsWs).isEmpty then none
    else if interruptChars.isPrefixOf (s.dropWhile jsWs) then
      (finishTail ((s.dropWhile jsWs).drop 9)).map (fun r => (true, r))
    else none
  match present with
  | some x => some x
  | none => (finishTail s).map (fun r => (false, r))

/-- Optional group `(?:\s+(?:'([^']+)'|([^\s}]+)))?` followed by the rest
of the pattern: quoted branch first, then the bare branch (which may
itself consume an unterminated quote), then group absent. -/
def contA (s : List Char) :
    Option (Option (List Char) × Option (List Char) × Bool × List Char) :=
  let afterWs := s.dropWhile jsWs
  let presentQuoted : Option (Option (List Char) × Option (List Char) × Bool × List Char) :=
    if (s.takeWhile jsWs).isEmpty then none
    else match afterWs with
      | [] => none
      | c0 :: t =>
          if c0 = '\'' then
            let name := t.takeWhile (fun x => x != '\'')
            if name.isEmpty then none
            else match t.drop name.length with
              | [] => none
              | c1 :: r =>
                  if c1 = '\'' then (contB r).map (fun p => (some name, none, p.1, p.2))
                  else none
          else none
  let presentBare : Option (Option (List Char) × Option (List Char) × Bool × List Char) :=
    if (s.takeWhile jsWs).isEmpty then none
    else
      let tok := afterWs.takeWhile (fun c => !(jsWs c) && c != '}')
      if tok.isEmpty then none
      else (contB (afterWs.drop tok.length)).map (fun p => (none, some tok, p.1, p.2))
  match presentQuoted with
  | some x => some x
  | none => match presentBare with
    | some x => some x
    | none => (contB s).map (fun p => (none, none, p.1, p.2))

/-- Alternation `(execute|copy|open)` at the current position.  The three
literals start with pairwise distinct characters, so at most one branch
can match and a continuation failure after it fails the whole position. -/
def takeAction (s : List Char) : Option (CmdAction × List Char) :=
  if (actionLit .execute).isPrefixOf s then some (.execute, s.drop 7)
  else if (actionLit .copy).isPrefixOf s then some (.copy, s.drop 4)
  else if (actionLit .openFile).isPrefixOf s then some (.openFile, s.drop 4)
  else none

/-- One attempted match of COMMAND_REGEX anchored at the current
position; on success returns the capture groups and the unconsumed
remainder. -/
def matchFrom (s : List Char) : Option (TagGroups × List Char) :=
  match s with
  | '`' :: rest =>
      let cmd := rest.takeWhile (fun x => x != '`')
      if cmd.isEmpty then none
      else match rest.drop cmd.length with
        | '`' :: rest2 =>
            match rest2.dropWhile jsWs with
            | '{' :: '{' :: rest4 =>
                match takeAction (rest4.dropWhile jsWs) with
                | none => none
                | some (act, rest6) =>
                    (contA rest6).map (fun p => (⟨cmd, act, p.1, p.2.1, p.2.2.1⟩, p.2.2.2))
            | _ => none
        | _ => none
  | _ => none

/-- Leftmost match: `regex.exec` scanning start positions left to right.
Returns `(match.index, groups, lastIndex)`. -/
def findFirstMatch : List Char → Nat → Option (Nat × TagGroups × Nat)
  | [], _ => none
  | c :: t, pos =>
      match matchFrom (c :: t) with
      | some (g, rest) => some (pos, g, pos + ((c :: t).length - rest.length))
      | none => findFirstMatch t (pos + 1)

/-- The `while (regex.exec(line))` loop of `parseDocument`: repeated
leftmost search continuing at each match's `lastIndex`.  Every match
consumes at least one character, so `fuel = length + 1` never runs out. -/
def scanLine : Nat → List Char → Nat → List (Nat × TagGroups × Nat)
  | 0, _, _ => []
  | fuel + 1, s, pos =>
      match findFirstMatch s pos with
      | none => []
      | some (st, g, en) => (st, g, en) :: scanLine fuel (s.drop (en - pos)) en

/-- Descriptor construction from the capture groups (commandParser.ts
lines 25–44 and 61–80): quoted group 3 wins, an unquoted group 4 becomes
the terminal unless it is the literal `interrupt`, and the interrupt flag
is set when group 4 or group 5 is `interrupt`. -/
def mkCommand (lineNumber startIndex : Nat) (g : TagGroups) (endIndex : Nat) : MDCLCommand :=
  let term : Option String :=
    match g.quoted with
    | some q => some ⟨q⟩
    | none =>
        match g.bare with
        | some b => if b = interruptChars then none else some ⟨b⟩
        | none => none
  let intr : Option Bool :=
    if g.bare = some interruptChars ∨ g.interruptWord = true then some true else none
  ⟨lineNumber, startIndex, endIndex, ⟨g.cmd⟩, g.action, term, intr⟩

/-- JavaScript `text.split('\n')` on the character list. -/
def splitNlL : List Char → List (List Char)
  | [] => [[]]
  | c :: t =>
      if c = '\n' then [] :: splitNlL t
      else match splitNlL t with
        | h :: rest => (c :: h) :: rest
        | [] => [[c]]

/-- `CommandParser.parseLine` (commandParser.ts lines 53–83). -/
def parseLine (line : String) (lineNumber : Nat) : Option MDCLCommand :=
  (findFirstMatch line.data 0).map (fun p => mkCommand lineNumber p.1 p.2.1 p.2.2)

/-- `CommandParser.parseDocument` (commandParser.ts lines 16–51): split on
newlines, scan every line, accumulate in document order. -/
def parseDocument (text : String) : List MDCLCommand :=
  ((splitNlL text.data).enum).flatMap
    (fun p => (scanLine (p.2.length + 1) p.2 0).map (fun q => mkCommand p.1 q.1 q.2.1 q.2.2))

example :
    parseLine "`cmd` \x7b\x7b execute interrupt \x7d\x7d" 3
      = some ⟨3, 0, 29, "cmd", .execute, none, some true⟩ := by decide

example :
    parseLine "`npm test` \x7b\x7b execute 't2' \x7d\x7d" 0
      = some ⟨0, 0, 29, "npm test", .execute, some "t2", none⟩ := by decide

example :
    parseLine "`npm test` \x7b\x7b execute t2 \x7d\x7d" 0
      = some ⟨0, 0, 27, "npm test", .execute, some "t2", none⟩ := by decide

example :
    parseDocument "`a` \x7b\x7b execute \x7d\x7d\n`b` \x7b\x7b copy \x7d\x7d"
      = [⟨0, 0, 17, "a", .execute, none, none⟩, ⟨1, 0, 14, "b", .copy, none, none⟩] := by
  decide

example : parseLine "`echo hi` \x7b\x7b bogus \x7d\x7d" 0 = none := by decide

/-! Helper lemmas for symbolic reasoning about the matcher: forced
behaviour of `takeWhile`/`dropWhile`/`isPrefixOf` across appends. -/

theorem takeWhile_append_all (p : Char → Bool) (l1 l2 : List Char)
    (h : ∀ a ∈ l1, p a = true) :
    (l1 ++ l2).takeWhile p = l1 ++ l2.takeWhile p := by
  induction l1 with
  | nil => simp
  | cons c t ih =>
      simp only [List.cons_append, List.takeWhile_cons, h c (List.mem_cons_self c t),
        if_true]
      rw [ih (fun a ha => h a (List.mem_cons_of_mem c ha))]

theorem dropWhile_append_all (p : Char → Bool) (l1 l2 : List Char)
    (h : ∀ a ∈ l1, p a = true) :
    (l1 ++ l2).dropWhile p = l2.dropWhile p := by
  induction l1 with
  | nil => simp
  | cons c t ih =>
      simp only [List.cons_append, List.dropWhile_cons, h c (List.mem_cons_self c t),
        if_true]
      exact ih (fun a ha => h a (List.mem_cons_of_mem c ha))

theorem isPrefixOf_append_self (l1 l2 : List Char) : l1.isPrefixOf (l1 ++ l2) = true := by
  induction l1 with
  | nil => simp [List.isPrefixOf]
  | cons c t ih => simp [List.isPrefixOf, ih]

theorem takeWhile_bne_exact (q : Char) (c r : List Char) (hc : ∀ x ∈ c, x ≠ q) :
    (c ++ q :: r).takeWhile (fun x => x != q) = c := by
  rw [takeWhile_append_all _ _ _ (fun a ha => by simp [hc a ha])]
  simp [List.takeWhile_cons]

theorem takeWhile_ws_exact (w : List Char) (c : Char) (r : List Char)
    (hw : ∀ x ∈ w, jsWs x = true) (hc : jsWs c = false) :
    (w ++ c :: r).takeWhile jsWs = w := by
  rw [takeWhile_append_all _ _ _ hw]
  simp [List.takeWhile_cons, hc]

theorem dropWhile_ws_exact (w : List Char) (c : Char) (r : List Char)
    (hw : ∀ x ∈ w, jsWs x = true) (hc : jsWs c = false) :
    (w ++ c :: r).dropWhile jsWs = c :: r := by
  rw [dropWhile_append_all _ _ _ hw]
  simp [List.dropWhile_cons, hc]

/-- The alternation `(execute|copy|open)` recognises each keyword; the
keywords start with pairwise distinct letters, so the falsity of the
earlier branches is definitional. -/
theorem takeAction_append (a : CmdAction) (r : List Char) :
    takeAction (actionLit a ++ r) = some (a, r) := by
  cases a with
  | execute =>
      rw [takeAction, if_pos (isPrefixOf_append_self _ _)]
      rfl
  | copy =>
      rw [takeAction]
      rw [show (actionLit .execute).isPrefixOf (actionLit .copy ++ r) = false from rfl]
      rw [if_neg (by simp), if_pos (isPrefixOf_append_self _ _)]
      rfl
  | openFile =>
      rw [takeAction]
      rw [show (actionLit .execute).isPrefixOf (actionLit .openFile ++ r) = false from rfl]
      rw [show (actionLit .copy).isPrefixOf (actionLit .openFile ++ r) = false from rfl]
      rw [if_neg (by simp), if_neg (by simp), if_pos (isPrefixOf_append_self _ _)]
      rfl

/-- Closing continuation `(?:\s+(interrupt))?\s*\}\}` applied to
whitespace followed by the two closing braces at end of line: the
interrupt group cannot match (the next non-space character is a brace),
so the absent branch closes with nothing left over. -/
theorem contB_close (w : List Char) (hw : ∀ x ∈ w, jsWs x = true) :
    contB (w ++ ['}', '}']) = some (false, []) := by
  have hbrace : jsWs '}' = false := rfl
  have htw : (w ++ ['}', '}']).takeWhile jsWs = w := takeWhile_ws_exact w '}' ['}'] hw hbrace
  have hdw : (w ++ ['}', '}']).dropWhile jsWs = ['}', '}'] :=
    dropWhile_ws_exact w '}' ['}'] hw hbrace
  rw [contB]
  simp only [htw, hdw]
  rw [show interruptChars.isPrefixOf ['}', '}'] = false from rfl]
  simp [finishTail, hdw]

/-- Argument continuation on a bare token: the quoted branch cannot start
(the token's first character is not a quote), the bare branch captures the
maximal run, and the tail closes. -/
theorem contA_bare_token (tok w3 w4 : List Char) (ht0 : tok ≠ [])
    (ht1 : ∀ x ∈ tok, jsWs x = false ∧ x ≠ '}' ∧ x ≠ '\'')
    (h3 : ∀ x ∈ w3, jsWs x = true) (h3ne : w3 ≠ [])
    (h4 : ∀ x ∈ w4, jsWs x = true) :
    contA (w3 ++ (tok ++ (w4 ++ ['}', '}']))) = some (none, some tok, false, []) := by
  obtain ⟨t0, tr, rfl⟩ : ∃ t0 tr, tok = t0 :: tr := by
    cases tok with
    | nil => exact absurd rfl ht0
    | cons t0 tr => exact ⟨t0, tr, rfl⟩
  have ht0ws : jsWs t0 = false := (ht1 t0 (List.mem_cons_self t0 tr)).1
  have hassoc : w3 ++ ((t0 :: tr) ++ (w4 ++ ['}', '}']))
      = w3 ++ t0 :: (tr ++ (w4 ++ ['}', '}'])) := by simp
  have htw : (w3 ++ ((t0 :: tr) ++ (w4 ++ ['}', '}']))).takeWhile jsWs = w3 := by
    rw [hassoc]; exact takeWhile_ws_exact w3 t0 _ h3 ht0ws
  have hdw : (w3 ++ ((t0 :: tr) ++ (w4 ++ ['}', '}']))).dropWhile jsWs
      = (t0 :: tr) ++ (w4 ++ ['}', '}']) := by
    rw [hassoc]; exact dropWhile_ws_exact w3 t0 _ h3 ht0ws
  have htok : ((t0 :: tr) ++ (w4 ++ ['}', '}'])).takeWhile
      (fun c => !(jsWs c) && c != '}') = t0 :: tr := by
    rw [takeWhile_append_all _ _ _
      (fun a ha => by simp [(ht1 a ha).1, (ht1 a ha).2.1])]
    rw [List.append_right_eq_self]
    cases w4 with
    | nil => simp [List.takeWhile_cons]
    | cons a w4' =>
        have : jsWs a = true := h4 a (List.mem_cons_self a w4')
        simp [List.takeWhile_cons, this]
  have hem : w3.isEmpty = false := by
    cases w3 with
    | nil => exact absurd rfl h3ne
    | cons _ _ => rfl
  have hq : t0 ≠ '\'' := (ht1 t0 (List.mem_cons_self t0 tr)).2.2
  have hdrop : ((t0 :: tr) ++ (w4 ++ ['}', '}'])).drop (t0 :: tr).length
      = w4 ++ ['}', '}'] := List.drop_left _ _
  rw [contA]
  simp only [htw, hdw, htok, hem, hdrop, hq, contB_close w4 h4]
  simp [hq]

/-- Argument continuation on a single-quoted name: the quoted branch
captures the maximal run of non-quote characters, the closing quote is
consumed, and the tail closes. -/
theorem contA_quoted_name (name w3 w4 : List Char) (hn0 : name ≠ [])
    (hn1 : ∀ x ∈ name, x ≠ '\'')
    (h3 : ∀ x ∈ w3, jsWs x = true) (h3ne : w3 ≠ [])
    (h4 : ∀ x ∈ w4, jsWs x = true) :
    contA (w3 ++ ('\'' :: (name ++ '\'' :: (w4 ++ ['}', '}']))))
      = some (some name, none, false, []) := by
  have hqws : jsWs '\'' = false := rfl
  have htw : (w3 ++ ('\'' :: (name ++ '\'' :: (w4 ++ ['}', '}'])))).takeWhile jsWs = w3 :=
    takeWhile_ws_exact w3 '\'' _ h3 hqws
  have hdw : (w3 ++ ('\'' :: (name ++ '\'' :: (w4 ++ ['}', '}'])))).dropWhile jsWs
      = '\'' :: (name ++ '\'' :: (w4 ++ ['}', '}'])) :=
    dropWhile_ws_exact w3 '\'' _ h3 hqws
  have hem : w3.isEmpty = false := by
    cases w3 with
    | nil => exact absurd rfl h3ne
    | cons _ _ => rfl
  have hnm : (name ++ '\'' :: (w4 ++ ['}', '}'])).takeWhile (fun x => x != '\'') = name :=
    takeWhile_bne_exact '\'' name _ hn1
  have hnem : name.isEmpty = false := by
    cases name with
    | nil => exact absurd rfl hn0
    | cons _ _ => rfl
  have hdropn : (name ++ '\'' :: (w4 ++ ['}', '}'])).drop name.length
      = '\'' :: (w4 ++ ['}', '}']) := List.drop_left _ _
  rw [contA]
  simp only [htw, hdw, hem, hnm, hnem, hdropn, contB_close w4 h4]
  simp

/-- Match spine of a well-formed inline tag: the command text and action
are captured and the problem reduces to the argument continuation. -/
theorem matchFrom_tag (c : List Char) (hc0 : c ≠ []) (hc1 : ∀ x ∈ c, x ≠ '`')
    (w1 w2 : List Char) (hw1 : ∀ x ∈ w1, jsWs x = true) (hw2 : ∀ x ∈ w2, jsWs x = true)
    (a : CmdAction) (rest6 : List Char) :
    matchFrom ('`' :: (c ++ '`' :: (w1 ++ '{' :: '{' :: (w2 ++ (actionLit a ++ rest6)))))
      = (contA rest6).map (fun p => (⟨c, a, p.1, p.2.1, p.2.2.1⟩, p.2.2.2)) := by
  have htc : (c ++ '`' :: (w1 ++ '{' :: '{' :: (w2 ++ (actionLit a ++ rest6)))).takeWhile
      (fun x => x != '`') = c := takeWhile_bne_exact '`' c _ hc1
  have hcem : c.isEmpty = false := by
    cases c with
    | nil => exact absurd rfl hc0
    | cons _ _ => rfl
  have hdropc : (c ++ '`' :: (w1 ++ '{' :: '{' :: (w2 ++ (actionLit a ++ rest6)))).drop
      c.length = '`' :: (w1 ++ '{' :: '{' :: (w2 ++ (actionLit a ++ rest6))) :=
    List.drop_left _ _
  have hdw1 : (w1 ++ '{' :: '{' :: (w2 ++ (actionLit a ++ rest6))).dropWhile jsWs
      = '{' :: '{' :: (w2 ++ (actionLit a ++ rest6)) :=
    dropWhile_ws_exact w1 '{' _ hw1 rfl
  have hdw2 : (w2 ++ (actionLit a ++ rest6)).dropWhile jsWs = actionLit a ++ rest6 := by
    cases a with
    | execute => exact dropWhile_ws_exact w2 'e' _ hw2 rfl
    | copy => exact dropWhile_ws_exact w2 'c' _ hw2 rfl
    | openFile => exact dropWhile_ws_exact w2 'o' _ hw2 rfl
  rw [matchFrom]
  simp only [htc, hcem, hdropc, hdw1, hdw2, takeAction_append]
  simp

/-- The line of one inline tag: backtick span, optional whitespace, the
double-brace directive with its action keyword and argument part. -/
def inlineTagLine (c w1 w2 : List Char) (a : CmdAction) (argPart : List Char) : List Char :=
  '`' :: (c ++ '`' :: (w1 ++ '{' :: '{' :: (w2 ++ (actionLit a ++ argPart))))

theorem findFirstMatch_at_zero (l : List Char) (g : TagGroups)
    (hm : matchFrom l = some (g, [])) (hne : l ≠ []) :
    findFirstMatch l 0 = some (0, g, l.length) := by
  cases l with
  | nil => exact absurd rfl hne
  | cons c t =>
      rw [findFirstMatch, hm]
      simp

theorem scanLine_single (l : List Char) (g : TagGroups) (fuel : Nat)
    (hm : findFirstMatch l 0 = some (0, g, l.length)) :
    scanLine (fuel + 2) l 0 = [(0, g, l.length)] := by
  rw [scanLine, hm]
  have hdrop : l.drop (l.length - 0) = [] := by simp
  simp [hdrop, scanLine, findFirstMatch]

theorem splitNlL_no_newline (l : List Char) (h : ∀ x ∈ l, x ≠ '\n') :
    splitNlL l = [l] := by
  induction l with
  | nil => rfl
  | cons c t ih =>
      rw [splitNlL]
      rw [if_neg (h c (List.mem_cons_self c t))]
      rw [ih (fun a ha => h a (List.mem_cons_of_mem c ha))]

/-- Assembly: a line consisting of exactly one well-formed inline tag is
parsed by `parseLine` into one descriptor, and by `parseDocument` (as a
one-line document) into the same descriptor on line 0. -/
theorem parse_inlineTag (c w1 w2 : List Char) (a : CmdAction) (args : List Char)
    (g3 g4 : Option (List Char)) (gi : Bool) (n : Nat)
    (hc0 : c ≠ []) (hc1 : ∀ x ∈ c, x ≠ '`')
    (hw1 : ∀ x ∈ w1, jsWs x = true) (hw2 : ∀ x ∈ w2, jsWs x = true)
    (hca : contA args = some (g3, g4, gi, []))
    (hnl : ∀ x ∈ inlineTagLine c w1 w2 a args, x ≠ '\n') :
    parseLine ⟨inlineTagLine c w1 w2 a args⟩ n
      = some (mkCommand n 0 ⟨c, a, g3, g4, gi⟩ (inlineTagLine c w1 w2 a args).length)
    ∧ parseDocument ⟨inlineTagLine c w1 w2 a args⟩
      = [mkCommand 0 0 ⟨c, a, g3, g4, gi⟩ (inlineTagLine c w1 w2 a args).length] := by
  have hmatch : matchFrom (inlineTagLine c w1 w2 a args)
      = some (⟨c, a, g3, g4, gi⟩, []) := by
    rw [inlineTagLine, matchFrom_tag c hc0 hc1 w1 w2 hw1 hw2 a args, hca]
    rfl
  have hne : inlineTagLine c w1 w2 a args ≠ [] := by
    rw [inlineTagLine]; exact List.cons_ne_nil _ _
  have hff : findFirstMatch (inlineTagLine c w1 w2 a args) 0
      = some (0, ⟨c, a, g3, g4, gi⟩, (inlineTagLine c w1 w2 a args).length) :=
    findFirstMatch_at_zero _ _ hmatch hne
  constructor
  · rw [parseLine]
    show (findFirstMatch (inlineTagLine c w1 w2 a args) 0).map _ = _
    rw [hff]
    rfl
  · rw [parseDocument]
    show (((splitNlL (inlineTagLine c w1 w2 a args)).enum).flatMap _) = _
    rw [splitNlL_no_newline _ hnl]
    obtain ⟨m, hm⟩ : ∃ m, (inlineTagLine c w1 w2 a args).length = m + 1 := by
      rw [inlineTagLine]; exact ⟨_, rfl⟩
    simp only [List.enum, List.enumFrom, List.flatMap_cons, List.flatMap_nil,
      List.append_nil]
    rw [show (inlineTagLine c w1 w2 a args).length + 1 = m + 2 from by omega]
    rw [scanLine_single _ _ m hff]
    rfl

theorem actionLit_ne_newline (a : CmdAction) : ∀ x ∈ actionLit a, x ≠ '\n' := by
  cases a <;> decide

/-- C3: an inline tag whose only argument is the bare word `interrupt`
parses — by `parseLine` and by `parseDocument` — to a descriptor with the
given action, NO terminal name, and the interrupt flag set: the bare
token `interrupt` is never taken as a channel name.  Quantified over the
command text, all whitespace runs, and all three actions. -/
theorem C3_interrupt_precedence (a : CmdAction) (c w1 w2 w3 w4 : List Char) (n : Nat)
    (hc0 : c ≠ []) (hc : ∀ x ∈ c, x ≠ '`' ∧ x ≠ '\n')
    (hw1 : ∀ x ∈ w1, jsWs x = true ∧ x ≠ '\n')
    (hw2 : ∀ x ∈ w2, jsWs x = true ∧ x ≠ '\n')
    (hw3 : ∀ x ∈ w3, jsWs x = true ∧ x ≠ '\n') (h3ne : w3 ≠ [])
    (hw4 : ∀ x ∈ w4, jsWs x = true ∧ x ≠ '\n') :
    parseLine ⟨inlineTagLine c w1 w2 a (w3 ++ (interruptChars ++ (w4 ++ ['}', '}'])))⟩ n
      = some ⟨n, 0,
          (inlineTagLine c w1 w2 a (w3 ++ (interruptChars ++ (w4 ++ ['}', '}'])))).length,
          ⟨c⟩, a, none, some true⟩
    ∧ parseDocument ⟨inlineTagLine c w1 w2 a (w3 ++ (interruptChars ++ (w4 ++ ['}', '}'])))⟩
      = [⟨0, 0,
          (inlineTagLine c w1 w2 a (w3 ++ (interruptChars ++ (w4 ++ ['}', '}'])))).length,
          ⟨c⟩, a, none, some true⟩] := by
  have hca : contA (w3 ++ (interruptChars ++ (w4 ++ ['}', '}'])))
      = some (none, some interruptChars, false, []) :=
    contA_bare_token interruptChars w3 w4 (by decide) (by decide)
      (fun x hx => (hw3 x hx).1) h3ne (fun x hx => (hw4 x hx).1)
  have hnl : ∀ x ∈ inlineTagLine c w1 w2 a (w3 ++ (interruptChars ++ (w4 ++ ['}', '}']))),
      x ≠ '\n' := by
    rw [inlineTagLine]
    simp only [List.forall_mem_cons, List.forall_mem_append]
    exact ⟨by decide, fun x hx => (hc x hx).2, ⟨by decide, fun x hx => (hw1 x hx).2,
      by decide, by decide, fun x hx => (hw2 x hx).2, actionLit_ne_newline a,
      ⟨fun x hx => (hw3 x hx).2, by decide, fun x hx => (hw4 x hx).2, by decide⟩⟩⟩
  have hp := parse_inlineTag c w1 w2 a _ none (some interruptChars) false n hc0
    (fun x hx => (hc x hx).1) (fun x hx => (hw1 x hx).1) (fun x hx => (hw2 x hx).1) hca hnl
  have hmk : ∀ m k, mkCommand m 0 ⟨c, a, none, some interruptChars, false⟩ k
      = ⟨m, 0, k, ⟨c⟩, a, none, some true⟩ := by
    intro m k
    rw [mkCommand]
    simp
  exact ⟨by rw [hp.1, hmk], by rw [hp.2, hmk]⟩

/-- Witness for C3 at the canonical layout with each action. -/
theorem C3_interrupt_precedence_witness :
    parseLine ⟨inlineTagLine "cmd".data [' '] [' '] .execute
        ([' '] ++ (interruptChars ++ ([' '] ++ ['}', '}'])))⟩ 0
      = some ⟨0, 0,
          (inlineTagLine "cmd".data [' '] [' '] .execute
            ([' '] ++ (interruptChars ++ ([' '] ++ ['}', '}'])))).length,
          "cmd", .execute, none, some true⟩
    ∧ parseDocument ⟨inlineTagLine "cmd".data [' '] [' '] .execute
        ([' '] ++ (interruptChars ++ ([' '] ++ ['}', '}'])))⟩
      = [⟨0, 0,
          (inlineTagLine "cmd".data [' '] [' '] .execute
            ([' '] ++ (interruptChars ++ ([' '] ++ ['}', '}'])))).length,
          "cmd", .execute, none, some true⟩] :=
  C3_interrupt_precedence .execute "cmd".data [' '] [' '] [' '] [' '] 0
    (by decide) (by decide) (by decide) (by decide) (by decide) (by decide) (by decide)

/-- C4: for every action and every channel name with no whitespace, no
quote, no closing brace that is not the literal `interrupt`, the
single-quoted form and the bare form of the tag parse to the same
descriptor: same command text, same action, terminal = the name,
interrupt unset.  Both `parseLine` and `parseDocument` agree. -/
theorem C4_quoting_equivalence (a : CmdAction) (c nm w1 w2 w3 w4 : List Char) (n : Nat)
    (hc0 : c ≠ []) (hc : ∀ x ∈ c, x ≠ '`' ∧ x ≠ '\n')
    (hn0 : nm ≠ [])
    (hn : ∀ x ∈ nm, jsWs x = false ∧ x ≠ '\'' ∧ x ≠ '}' ∧ x ≠ '\n')
    (hni : nm ≠ interruptChars)
    (hw1 : ∀ x ∈ w1, jsWs x = true ∧ x ≠ '\n')
    (hw2 : ∀ x ∈ w2, jsWs x = true ∧ x ≠ '\n')
    (hw3 : ∀ x ∈ w3, jsWs x = true ∧ x ≠ '\n') (h3ne : w3 ≠ [])
    (hw4 : ∀ x ∈ w4, jsWs x = true ∧ x ≠ '\n') :
    parseLine ⟨inlineTagLine c w1 w2 a (w3 ++ ('\'' :: (nm ++ '\'' :: (w4 ++ ['}', '}']))))⟩ n
      = some ⟨n, 0,
          (inlineTagLine c w1 w2 a (w3 ++ ('\'' :: (nm ++ '\'' :: (w4 ++ ['}', '}']))))).length,
          ⟨c⟩, a, some ⟨nm⟩, none⟩
    ∧ parseLine ⟨inlineTagLine c w1 w2 a (w3 ++ (nm ++ (w4 ++ ['}', '}'])))⟩ n
      = some ⟨n, 0,
          (inlineTagLine c w1 w2 a (w3 ++ (nm ++ (w4 ++ ['}', '}'])))).length,
          ⟨c⟩, a, some ⟨nm⟩, none⟩
    ∧ parseDocument ⟨inlineTagLine c w1 w2 a (w3 ++ ('\'' :: (nm ++ '\'' :: (w4 ++ ['}', '}']))))⟩
      = [⟨0, 0,
          (inlineTagLine c w1 w2 a (w3 ++ ('\'' :: (nm ++ '\'' :: (w4 ++ ['}', '}']))))).length,
          ⟨c⟩, a, some ⟨nm⟩, none⟩]
    ∧ parseDocument ⟨inlineTagLine c w1 w2 a (w3 ++ (nm ++ (w4 ++ ['}', '}'])))⟩
      = [⟨0, 0,
          (inlineTagLine c w1 w2 a (w3 ++ (nm ++ (w4 ++ ['}', '}'])))).length,
          ⟨c⟩, a, some ⟨nm⟩, none⟩] := by
  have hcaq : contA (w3 ++ ('\'' :: (nm ++ '\'' :: (w4 ++ ['}', '}']))))
      = some (some nm, none, false, []) :=
    contA_quoted_name nm w3 w4 hn0 (fun x hx => (hn x hx).2.1)
      (fun x hx => (hw3 x hx).1) h3ne (fun x hx => (hw4 x hx).1)
  have hcab : contA (w3 ++ (nm ++ (w4 ++ ['}', '}'])))
      = some (none, some nm, false, []) :=
    contA_bare_token nm w3 w4 hn0
      (fun x hx => ⟨(hn x hx).1, (hn x hx).2.2.1, (hn x hx).2.1⟩)
      (fun x hx => (hw3 x hx).1) h3ne (fun x hx => (hw4 x hx).1)
  have hnlq : ∀ x ∈ inlineTagLine c w1 w2 a (w3 ++ ('\'' :: (nm ++ '\'' :: (w4 ++ ['}', '}'])))),
      x ≠ '\n' := by
    rw [inlineTagLine]
    simp only [List.forall_mem_cons, List.forall_mem_append]
    exact ⟨by decide, fun x hx => (hc x hx).2, ⟨by decide, fun x hx => (hw1 x hx).2,
      by decide, by decide, fun x hx => (hw2 x hx).2, actionLit_ne_newline a,
      ⟨fun x hx => (hw3 x hx).2, by decide, fun x hx => (hn x hx).2.2.2,
       by decide, fun x hx => (hw4 x hx).2, by decide⟩⟩⟩
  have hnlb : ∀ x ∈ inlineTagLine c w1 w2 a (w3 ++ (nm ++ (w4 ++ ['}', '}']))),
      x ≠ '\n' := by
    rw [inlineTagLine]
    simp only [List.forall_mem_cons, List.forall_mem_append]
    exact ⟨by decide, fun x hx => (hc x hx).2, ⟨by decide, fun x hx => (hw1 x hx).2,
      by decide, by decide, fun x hx => (hw2 x hx).2, actionLit_ne_newline a,
      ⟨fun x hx => (hw3 x hx).2, fun x hx => (hn x hx).2.2.2,
       fun x hx => (hw4 x hx).2, by decide⟩⟩⟩
  have hpq := parse_inlineTag c w1 w2 a _ (some nm) none false n hc0
    (fun x hx => (hc x hx).1) (fun x hx => (hw1 x hx).1) (fun x hx => (hw2 x hx).1)
    hcaq hnlq
  have hpb := parse_inlineTag c w1 w2 a _ none (some nm) false n hc0
    (fun x hx => (hc x hx).1) (fun x hx => (hw1 x hx).1) (fun x hx => (hw2 x hx).1)
    hcab hnlb
  have hmkq : ∀ m k, mkCommand m 0 ⟨c, a, some nm, none, false⟩ k
      = ⟨m, 0, k, ⟨c⟩, a, some ⟨nm⟩, none⟩ := by
    intro m k
    rw [mkCommand]
    simp
  have hmkb : ∀ m k, mkCommand m 0 ⟨c, a, none, some nm, false⟩ k
      = ⟨m, 0, k, ⟨c⟩, a, some ⟨nm⟩, none⟩ := by
    intro m k
    rw [mkCommand]
    simp [hni]
  exact ⟨by rw [hpq.1, hmkq], by rw [hpb.1, hmkb],
    by rw [hpq.2, hmkq], by rw [hpb.2, hmkb]⟩

/-- Witness for C4 at the channel name `t2`. -/
theorem C4_quoting_equivalence_witness :
    parseLine ⟨inlineTagLine "cmd".data [' '] [' '] .execute
        ([' '] ++ ('\'' :: ("t2".data ++ '\'' :: ([' '] ++ ['}', '}']))))⟩ 0
      = some ⟨0, 0,
          (inlineTagLine "cmd".data [' '] [' '] .execute
            ([' '] ++ ('\'' :: ("t2".data ++ '\'' :: ([' '] ++ ['}', '}']))))).length,
          "cmd", .execute, some "t2", none⟩
    ∧ parseLine ⟨inlineTagLine "cmd".data [' '] [' '] .execute
        ([' '] ++ ("t2".data ++ ([' '] ++ ['}', '}'])))⟩ 0
      = some ⟨0, 0,
          (inlineTagLine "cmd".data [' '] [' '] .execute
            ([' '] ++ ("t2".data ++ ([' '] ++ ['}', '}'])))).length,
          "cmd", .execute, some "t2", none⟩
    ∧ parseDocument ⟨inlineTagLine "cmd".data [' '] [' '] .execute
        ([' '] ++ ('\'' :: ("t2".data ++ '\'' :: ([' '] ++ ['}', '}']))))⟩
      = [⟨0, 0,
          (inlineTagLine "cmd".data [' '] [' '] .execute
            ([' '] ++ ('\'' :: ("t2".data ++ '\'' :: ([' '] ++ ['}', '}']))))).length,
          "cmd", .execute, some "t2", none⟩]
    ∧ parseDocument ⟨inlineTagLine "cmd".data [' '] [' '] .execute
        ([' '] ++ ("t2".data ++ ([' '] ++ ['}', '}'])))⟩
      = [⟨0, 0,
          (inlineTagLine "cmd".data [' '] [' '] .execute
            ([' '] ++ ("t2".data ++ ([' '] ++ ['}', '}'])))).length,
          "cmd", .execute, some "t2", none⟩] :=
  C4_quoting_equivalence .execute "cmd".data "t2".data [' '] [' '] [' '] [' '] 0
    (by decide) (by decide) (by decide) (by decide) (by decide) (by decide)
    (by decide) (by decide) (by decide) (by decide)

/-- Character list of the pattern `.mdcl`. -/
def mdclPat : List Char := ['.', 'm', 'd', 'c', 'l']

/-- The pattern `.mdcl` has no nontrivial border, so it cannot begin
strictly inside a text that continues with `.mdcl` unless it already began
within that text's proper prefix. -/
theorem mdcl_no_straddle (c : Char) (b r : List Char)
    (h1 : mdclPat.isPrefixOf (c :: b) = false) :
    mdclPat.isPrefixOf (c :: (b ++ mdclPat ++ r)) = false := by
  match b with
  | [] => simp [mdclPat, List.isPrefixOf]
  | [x] => simp [mdclPat, List.isPrefixOf]
  | [x, y] => simp [mdclPat, List.isPrefixOf]
  | [x, y, z] => simp [mdclPat, List.isPrefixOf]
  | x :: y :: z :: w :: t =>
      simp only [mdclPat, List.isPrefixOf, List.cons_append, Bool.and_eq_false_imp] at h1 ⊢
      exact h1

/-- First-occurrence replacement of `.mdcl` in `b ++ ".mdcl" ++ r`
replaces exactly the displayed occurrence when `b` itself contains none. -/
theorem replaceFirstL_append_mdcl (repl : List Char) (b r : List Char)
    (hb : containsSub mdclPat b = false) :
    replaceFirstL mdclPat repl (b ++ (mdclPat ++ r)) = b ++ (repl ++ r) := by
  induction b with
  | nil =>
      have hpre : mdclPat.isPrefixOf (mdclPat ++ r) = true := by
        simp [mdclPat, List.isPrefixOf]
      simp only [List.nil_append]
      rw [show mdclPat ++ r = '.' :: (['m', 'd', 'c', 'l'] ++ r) from rfl]
      rw [replaceFirstL]
      rw [show ('.' :: (['m', 'd', 'c', 'l'] ++ r)) = mdclPat ++ r from rfl, hpre]
      simp [mdclPat, List.drop_left']
  | cons c b' ih =>
      simp only [containsSub, Bool.or_eq_false_iff] at hb
      obtain ⟨hb1, hb2⟩ := hb
      simp only [List.cons_append]
      rw [replaceFirstL]
      have : mdclPat.isPrefixOf (c :: (b' ++ (mdclPat ++ r))) = false := by
        have := mdcl_no_straddle c b' r hb1
        simpa [List.append_assoc] using this
      rw [if_neg (by simp [this])]
      exact congrArg (c :: ·) (ih hb2)

/-- Scanning loop characterization: the loop yields `none` exactly when
every candidate is missing from disk or fails to parse. -/
theorem tryLoadPaths_eq_none_iff (env : LoaderEnv) (l : List String) :
    tryLoadPaths env l = none ↔
      ∀ p ∈ l, env.fsExists p = false ∨ parseAnswerKey env (env.fsRead p) p = none := by
  induction l with
  | nil => simp [tryLoadPaths]
  | cons p rest ih =>
      rw [tryLoadPaths]
      by_cases hex : env.fsExists p
      · rw [if_pos hex]
        cases hparse : parseAnswerKey env (env.fsRead p) p with
        | some k => simp [hex, hparse]
        | none => simp [hex, hparse, ih]
      · simp [hex, ih]

/-- Concrete environment for the C7 counterexample: exactly one file
exists, and YAML parsing succeeds on anything. -/
def envC7 : LoaderEnv :=
  ⟨fun p => p == "/tmp/a.mdclanswer.yaml.d/notes.mdcl", fun _ => "k",
   fun _ => some ⟨[]⟩, fun _ => none⟩

/-- C7 (counterexample): for the document path `/tmp/a.mdcl.d/notes.mdcl`
the code replaces the FIRST occurrence of `.mdcl` — inside the directory
name — so it loads `/tmp/a.mdclanswer.yaml.d/notes.mdcl`, while
replacing the document's extension as the claim states would derive
candidates inside `/tmp/a.mdcl.d/` and find nothing. -/
theorem C7_counterexample :
    (loadAnswerKey envC7 [] "/tmp/a.mdcl.d/notes.mdcl" none).1 = some ⟨[]⟩
    ∧ tryLoadPaths envC7 (specAnswerKeyPaths "/tmp/a.mdcl.d/notes.mdcl") = none
    ∧ defaultAnswerKeyPaths "/tmp/a.mdcl.d/notes.mdcl"
        ≠ specAnswerKeyPaths "/tmp/a.mdcl.d/notes.mdcl" := by
  refine ⟨by decide, by decide, by decide⟩

/-- C7 (amended): with no custom key name, `loadAnswerKey` derives its
three candidates by replacing the FIRST occurrence of the substring
`.mdcl` in the document path — which coincides with replacing the
document's extension whenever `.mdcl` occurs only as the final extension —
in `.yaml`, `.yml`, extension-less order; it loads the first candidate
that exists and parses, and resolves to `none` (never throwing) when no
candidate exists or every existing candidate fails to parse. -/
theorem C7_default_candidates (env : LoaderEnv) (cache : List (String × AnswerKey))
    (base : String) (hb : strContains base ".mdcl" = false)
    (hmiss : cache.find? (fun p => p.1 = base ++ ".mdcl") = none) :
    defaultAnswerKeyPaths (base ++ ".mdcl")
      = [base ++ ".mdclanswer.yaml", base ++ ".mdclanswer.yml", base ++ ".mdclanswer"]
    ∧ (loadAnswerKey env cache (base ++ ".mdcl") none).1
        = tryLoadPaths env (defaultAnswerKeyPaths (base ++ ".mdcl"))
    ∧ (tryLoadPaths env (defaultAnswerKeyPaths (base ++ ".mdcl")) = none ↔
        ∀ p ∈ defaultAnswerKeyPaths (base ++ ".mdcl"),
          env.fsExists p = false ∨ parseAnswerKey env (env.fsRead p) p = none) := by
  have hrepl : ∀ repl : String,
      jsReplaceFirst (base ++ ".mdcl") ".mdcl" repl = base ++ repl := by
    intro repl
    show String.mk (replaceFirstL mdclPat repl.data (base ++ ".mdcl").data)
      = base ++ repl
    have : (base ++ ".mdcl").data = base.data ++ (mdclPat ++ []) := by
      simp [String.data_append, mdclPat]
    rw [this, replaceFirstL_append_mdcl repl.data base.data [] hb]
    simp [String.ext_iff, String.data_append]
  refine ⟨?_, ?_, tryLoadPaths_eq_none_iff env _⟩
  · simp [defaultAnswerKeyPaths, hrepl]
  · rw [loadAnswerKey]
    simp only [hmiss]
    cases htl : tryLoadPaths env (defaultAnswerKeyPaths (base ++ ".mdcl")) <;> simp [htl]

/-- Witness for C7's amended theorem at a clean concrete path. -/
theorem C7_default_candidates_witness :
    (strContains "/tmp/notes" ".mdcl" = false
     ∧ ([] : List (String × AnswerKey)).find? (fun p => p.1 = "/tmp/notes" ++ ".mdcl") = none)
    ∧ (defaultAnswerKeyPaths ("/tmp/notes" ++ ".mdcl")
        = ["/tmp/notes" ++ ".mdclanswer.yaml", "/tmp/notes" ++ ".mdclanswer.yml",
           "/tmp/notes" ++ ".mdclanswer"]
    ∧ (loadAnswerKey envC7 [] ("/tmp/notes" ++ ".mdcl") none).1
        = tryLoadPaths envC7 (defaultAnswerKeyPaths ("/tmp/notes" ++ ".mdcl"))
    ∧ (tryLoadPaths envC7 (defaultAnswerKeyPaths ("/tmp/notes" ++ ".mdcl")) = none ↔
        ∀ p ∈ defaultAnswerKeyPaths ("/tmp/notes" ++ ".mdcl"),
          envC7.fsExists p = false ∨ parseAnswerKey envC7 (envC7.fsRead p) p = none)) :=
  ⟨⟨by decide, by decide⟩,
   C7_default_candidates envC7 [] "/tmp/notes" (by decide) (by decide)⟩

/-- C5 (counterexample): `validateAnswer` does not implement set equality
for a list-valued `correct` field.  For the entry `{correct: ["A","A"]}`
and user answer `["A","B"]` it reports `correct = true`, yet the
normalized user set `{A,B}` and the normalized correct set `{A}` differ. -/
theorem C5_counterexample :
    (validateAnswer "q" (.arr ["A", "B"])
        (some ⟨[("q", ⟨.many ["A", "A"], none, none, none⟩)]⟩)).map VResult.correct
      = some true
    ∧ ¬ setEqNormalized none ["A", "B"] ["A", "A"] := by
  refine ⟨by decide, ?_⟩
  simp only [setEqNormalized]
  decide

/-- C5 (amended): for a list-valued `correct` field, `validateAnswer`
reports `correct = true` iff the normalized lists have equal length and
every normalized correct answer occurs among the normalized user answers;
when both normalized lists are duplicate-free this is exactly set equality
(order irrelevant, no partial credit for strict subsets or supersets). -/
theorem C5_multi_answer (qid : String) (e : Answer) (cs user : List String)
    (h : e.correct = .many cs) :
    ∃ r, validateAnswer qid (.arr user) (some ⟨[(qid, e)]⟩) = some r
    ∧ (r.correct = true ↔
        ((cs.map (normalizeAnswer e.caseSensitive)).length
            = (user.map (normalizeAnswer e.caseSensitive)).length
         ∧ ∀ a ∈ cs.map (normalizeAnswer e.caseSensitive),
             a ∈ user.map (normalizeAnswer e.caseSensitive)))
    ∧ ((cs.map (normalizeAnswer e.caseSensitive)).Nodup →
       (user.map (normalizeAnswer e.caseSensitive)).Nodup →
        (r.correct = true ↔ setEqNormalized e.caseSensitive user cs)) := by
  obtain ⟨ec, eexp, ealt, ecs⟩ := e
  simp only [Answer.correct] at h
  subst h
  set N := normalizeAnswer ecs with hN
  refine ⟨⟨(cs.map N).length == (user.map N).length &&
      (cs.map N).all (fun a => (user.map N).contains a), eexp, some (.many cs)⟩, ?_, ?_, ?_⟩
  · simp [validateAnswer, lookupAnswer, hN]
  · simp [List.all_eq_true, List.elem_iff]
  · intro hnc hnu
    simp only [List.all_eq_true, List.contains, List.elem_iff, Bool.and_eq_true,
      beq_iff_eq]
    constructor
    · rintro ⟨hlen, hsub⟩
      have hss : (cs.map N).toFinset ⊆ (user.map N).toFinset := by
        intro a ha
        simp only [List.mem_toFinset] at ha ⊢
        exact hsub a ha
      have hcard : (user.map N).toFinset.card ≤ (cs.map N).toFinset.card := by
        rw [List.toFinset_card_of_nodup hnc, List.toFinset_card_of_nodup hnu, hlen]
      simpa [setEqNormalized, ← hN] using (Finset.eq_of_subset_of_card_le hss hcard).symm
    · intro hset
      simp only [setEqNormalized, ← hN] at hset
      constructor
      · rw [← List.toFinset_card_of_nodup hnc, ← List.toFinset_card_of_nodup hnu, hset]
      · intro a ha
        have := hset ▸ (List.mem_toFinset.mpr ha)
        exact List.mem_toFinset.mp this

/-- Witness for C5's amended theorem at a concrete entry. -/
theorem C5_multi_answer_witness :
    ∃ r, validateAnswer "q" (.arr ["C", "A"])
        (some ⟨[("q", ⟨.many ["A", "C"], none, none, none⟩)]⟩) = some r
    ∧ (r.correct = true ↔
        ((["A", "C"].map (normalizeAnswer none)).length
            = (["C", "A"].map (normalizeAnswer none)).length
         ∧ ∀ a ∈ ["A", "C"].map (normalizeAnswer none),
             a ∈ ["C", "A"].map (normalizeAnswer none)))
    ∧ ((["A", "C"].map (normalizeAnswer none)).Nodup →
       (["C", "A"].map (normalizeAnswer none)).Nodup →
        (r.correct = true ↔ setEqNormalized none ["C", "A"] ["A", "C"])) :=
  C5_multi_answer "q" ⟨.many ["A", "C"], none, none, none⟩ ["A", "C"] ["C", "A"] rfl

/-- C6: `validateAnswer` trims every compared string, and lowercases both
sides exactly when the entry has `caseSensitive === false`; with the key
`{correct: "B", caseSensitive: false}` the user answers "b", " B " and "B"
validate as correct while "C" does not. -/
theorem C6_normalization (ans : String) (cs : Option Bool) (h : cs ≠ some false) :
    normalizeAnswer cs ans = jsTrim ans
    ∧ normalizeAnswer (some false) ans = jsTrim (jsToLower ans)
    ∧ (let key : Option AnswerKey := some ⟨[("q", ⟨.one "B", none, none, some false⟩)]⟩
       (validateAnswer "q" (.str "b") key).map VResult.correct = some true
       ∧ (validateAnswer "q" (.str " B ") key).map VResult.correct = some true
       ∧ (validateAnswer "q" (.str "B") key).map VResult.correct = some true
       ∧ (validateAnswer "q" (.str "C") key).map VResult.correct = some false) :=
  ⟨by simp [normalizeAnswer, h], rfl, by decide, by decide, by decide, by decide⟩

/-- Witness for C6 at a concrete non-`false` `caseSensitive` value. -/
theorem C6_normalization_witness :
    (none ≠ some false)
    ∧ (normalizeAnswer none " B " = jsTrim " B "
       ∧ normalizeAnswer (some false) " B " = jsTrim (jsToLower " B ")
       ∧ (let key : Option AnswerKey := some ⟨[("q", ⟨.one "B", none, none, some false⟩)]⟩
          (validateAnswer "q" (.str "b") key).map VResult.correct = some true
          ∧ (validateAnswer "q" (.str " B ") key).map VResult.correct = some true
          ∧ (validateAnswer "q" (.str "B") key).map VResult.correct = some true
          ∧ (validateAnswer "q" (.str "C") key).map VResult.correct = some false)) :=
  ⟨by decide, C6_normalization " B " none (by decide)⟩

/-- C10: when the entry's `correct` field is a single string,
`validateAnswer` compares only the first element of an array-valued user
answer — elements after the first never influence the result — and in
particular `["B","X"]` against `correct = "B"` validates as correct. -/
theorem C10_first_element_only (qid : String) (k : AnswerKey) (a : Answer) (s : String)
    (hl : lookupAnswer k qid = some a) (hc : a.correct = .one s)
    (u : String) (rest rest' : List String) :
    validateAnswer qid (.arr (u :: rest)) (some k)
      = validateAnswer qid (.arr (u :: rest')) (some k)
    ∧ validateAnswer qid (.arr (u :: rest)) (some k) = validateAnswer qid (.str u) (some k)
    ∧ (validateAnswer "q" (.arr ["B", "X"])
        (some ⟨[("q", ⟨.one "B", none, none, none⟩)]⟩)).map VResult.correct = some true := by
  refine ⟨?_, ?_, by decide⟩ <;> simp [validateAnswer, hl, hc]

/-- Witness for C10 at a concrete key and user answer. -/
theorem C10_first_element_only_witness :
    validateAnswer "q" (.arr ["B", "X"]) (some ⟨[("q", ⟨.one "B", none, none, none⟩)]⟩)
      = validateAnswer "q" (.arr ["B", "Y"]) (some ⟨[("q", ⟨.one "B", none, none, none⟩)]⟩)
    ∧ validateAnswer "q" (.arr ["B", "X"]) (some ⟨[("q", ⟨.one "B", none, none, none⟩)]⟩)
      = validateAnswer "q" (.str "B") (some ⟨[("q", ⟨.one "B", none, none, none⟩)]⟩)
    ∧ (validateAnswer "q" (.arr ["B", "X"])
        (some ⟨[("q", ⟨.one "B", none, none, none⟩)]⟩)).map VResult.correct = some true :=
  C10_first_element_only "q" ⟨[("q", ⟨.one "B", none, none, none⟩)]⟩
    ⟨.one "B", none, none, none⟩ "B" (by decide) rfl "B" ["X"] ["Y"]

/-! ## A small backtracking regex engine

The preview pipeline (`MDCLPreviewPanel.getHtmlContent`) is a sequence of
JavaScript `String.replace(regex, callback)` passes.  Each source regex is
encoded below as an `RE` term mirroring its pattern text, and matched with
standard JavaScript semantics: leftmost match, greedy quantifiers, ordered
alternation, full backtracking.  None of the source patterns contains a
nullable quantifier body, lazy quantifiers, look-arounds or backreferences. -/

/-- Regex AST: literals, character classes, sequence, ordered alternation,
greedy star, greedy option and numbered capture groups. -/
inductive RE where
  | eps : RE
  | lit : List Char → RE
  | cls : (Char → Bool) → RE
  | seq : RE → RE → RE
  | alt : RE → RE → RE
  | star : RE → RE
  | opt : RE → RE
  | grp : Nat → RE → RE

/-- Greedy plus, as in the source patterns. -/
def rePlus (r : RE) : RE := .seq r (.star r)

/-- Captured groups, most recent first. -/
def capGet (caps : List (Nat × List Char)) (n : Nat) : Option (List Char) :=
  (caps.find? (fun p => p.1 = n)).map (·.2)

/-- CPS backtracking matcher, structurally recursive on a fuel that
bounds the recursion depth (pattern spine length times star unrolling);
`reFuel` below is ample for every encoded pattern, so exhaustion never
occurs on the inputs evaluated here.  The `s'.length < s.length` progress
check mirrors the engine's empty-iteration exit (no encoded star body is
nullable). -/
def matchRE : Nat → RE → List Char → List (Nat × List Char) →
    (List Char → List (Nat × List Char) → Option (List Char × List (Nat × List Char))) →
    Option (List Char × List (Nat × List Char))
  | 0, _, _, _, _ => none
  | fuel + 1, re, s, caps, k =>
      match re with
      | .eps => k s caps
      | .lit l => if l.isPrefixOf s then k (s.drop l.length) caps else none
      | .cls p =>
          match s with
          | [] => none
          | c :: t => if p c then k t caps else none
      | .seq a b => matchRE fuel a s caps (fun s' caps' => matchRE fuel b s' caps' k)
      | .alt a b =>
          match matchRE fuel a s caps k with
          | some r => some r
          | none => matchRE fuel b s caps k
      | .star r =>
          match matchRE fuel r s caps (fun s' caps' =>
              if s'.length < s.length then matchRE fuel (.star r) s' caps' k
              else none) with
          | some res => some res
          | none => k s caps
      | .opt r =>
          match matchRE fuel r s caps k with
          | some res => some res
          | none => k s caps
      | .grp n r =>
          matchRE fuel r s caps
            (fun s' caps' => k s' ((n, s.take (s.length - s'.length)) :: caps'))

/-- Leftmost search from the current position (`regex.exec`): returns the
match index, the matched slice, the captures and the remainder after the
match. -/
def reFind (fuel : Nat) (re : RE) :
    List Char → Nat → Option (Nat × List Char × List (Nat × List Char) × List Char)
  | s, pos =>
      match matchRE fuel re s [] (fun s' caps => some (s', caps)) with
      | some (s', caps) => some (pos, s.take (s.length - s'.length), caps, s')
      | none =>
          match s with
          | [] => none
          | _ :: t => reFind fuel re t (pos + 1)

/-- `String.replace(regex-with-g, callback)` with a stateful callback:
repeated leftmost search, each search resuming after the previous match
(the source patterns cannot match the empty string, so the scan always
advances). -/
def reReplace {σ : Type} (fuel : Nat) (re : RE)
    (cb : List Char → List (Nat × List Char) → σ → List Char × σ) :
    Nat → List Char → σ → List Char × σ
  | 0, s, st => (s, st)
  | iter + 1, s, st =>
      match reFind fuel re s 0 with
      | none => (s, st)
      | some (idx, matched, caps, rest) =>
          let (rep, st') := cb matched caps st
          let (tail, st'') := reReplace fuel re cb iter rest st'
          (s.take idx ++ rep ++ tail, st'')

/-- All matches of a global regex (`while (re.exec(text))`): the capture
lists in match order. -/
def reFindAllCaps (fuel : Nat) (re : RE) :
    Nat → List Char → List (List (Nat × List Char))
  | 0, _ => []
  | iter + 1, s =>
      match reFind fuel re s 0 with
      | none => []
      | some (_, _, caps, rest) => caps :: reFindAllCaps fuel re iter rest

/-- Default engine fuel for an input: recursion depth is bounded by the
pattern's spine length (< 200 for every encoded pattern) per consumed
character. -/
def reFuel (s : List Char) : Nat := 200 * (s.length + 4)

/-! ## The source patterns of `getHtmlContent`, encoded -/

/-- JavaScript `\w`. -/
def wordChar (c : Char) : Bool :=
  ('a' ≤ c && c ≤ 'z') || ('A' ≤ c && c ≤ 'Z') || ('0' ≤ c && c ≤ '9') || c = '_'

/-- Class `['"]`. -/
def quoteDq (c : Char) : Bool := c = '\'' || c = '"'

/-- Class `[^'"]`. -/
def notQuoteDq (c : Char) : Bool := !(c = '\'' || c = '"')

/-- Class `[^\s}]`. -/
def noWsBrace (c : Char) : Bool := !(jsWs c) && c != '}'

/-- Sequence of several regex parts. -/
def reCat : List RE → RE
  | [] => .eps
  | [r] => r
  | r :: rs => .seq r (reCat rs)

/-- `\s*`. -/
def reWsStar : RE := .star (.cls jsWs)

/-- `\s+`. -/
def reWsPlus : RE := rePlus (.cls jsWs)

/-- `(execute|copy|open)` without the capture. -/
def reActionAlt : RE := .alt (.lit "execute".data) (.alt (.lit "copy".data) (.lit "open".data))

/-- `.` (any character but newline). -/
def reDot : RE := .cls (fun c => c != '\n')

/-- extension.ts line 410:
`` /```\s*\n((?:.*\{\{\s*(?:execute|copy|open).*\n?)+)```/g `` -/
def codeBlockWithCommandsRE : RE :=
  reCat [.lit "```".data, reWsStar, .lit ['\n'],
    .grp 1 (rePlus (reCat [.star reDot, .lit ['{', '{'], reWsStar, reActionAlt,
      .star reDot, .opt (.lit ['\n'])])),
    .lit "```".data]

/-- Optional terminal-argument group `(?:\s+(?:['"]([^'"]+)['"]|([^\s}]+)))`
shared by the block pattern (line 420) and the code-block line pattern
(line 553); groups 3 and 4. -/
def blockTermGroupRE : RE :=
  .seq reWsPlus
    (.alt (reCat [.cls quoteDq, .grp 3 (rePlus (.cls notQuoteDq)), .cls quoteDq])
          (.grp 4 (rePlus (.cls noWsBrace))))

/-- Optional `(?:\s+(interrupt))`; group 5. -/
def blockInterruptGroupRE : RE := .seq reWsPlus (.grp 5 (.lit "interrupt".data))

/-- extension.ts line 420:
`` /```(\w+)?\{\{\s*(execute|copy|open)(?:\s+(?:['"]([^'"]+)['"]|([^\s}]+)))?(?:\s+(interrupt))?\s*\}\}\s*\n([^`]*)```/g `` -/
def blockCommandRE : RE :=
  reCat [.lit "```".data, .opt (.grp 1 (rePlus (.cls wordChar))), .lit ['{', '{'],
    reWsStar, .grp 2 reActionAlt, .opt blockTermGroupRE, .opt blockInterruptGroupRE,
    reWsStar, .lit ['}', '}'], reWsStar, .lit ['\n'],
    .grp 6 (.star (.cls (fun c => c != '`'))), .lit "```".data]

/-- extension.ts line 458:
`` /```quiz(?:\s+id=["']([^"']+)["'])?(?:\s+answerKey=["']([^"']+)["'])?\s*\n([^`]*)```/g `` -/
def quizBlockRE : RE :=
  reCat [.lit "```quiz".data,
    .opt (reCat [reWsPlus, .lit "id=".data, .cls quoteDq,
      .grp 1 (rePlus (.cls notQuoteDq)), .cls quoteDq]),
    .opt (reCat [reWsPlus, .lit "answerKey=".data, .cls quoteDq,
      .grp 2 (rePlus (.cls notQuoteDq)), .cls quoteDq]),
    reWsStar, .lit ['\n'], .grp 3 (.star (.cls (fun c => c != '`'))), .lit "```".data]

/-- Placeholder wrapper pattern (lines 477, 484, 546):
`` <pre><code[^>]*>${id}\s*</code></pre> `` -/
def markerWrapRE (id : List Char) : RE :=
  reCat [.lit "<pre><code".data, .star (.cls (fun c => c != '>')), .lit ['>'], .lit id,
    reWsStar, .lit "</code></pre>".data]

/-- extension.ts line 553 (first match per line inside marked code blocks):
`` /`([^`]+)`\s*\{\{\s*(execute|copy|open)(?:\s+(?:['"]([^'"]+)['"]|([^\s}]+)))?(?:\s+(interrupt))?\s*\}\}/ `` -/
def codeLineCmdRE : RE :=
  reCat [.lit ['`'], .grp 1 (rePlus (.cls (fun c => c != '`'))), .lit ['`'], reWsStar,
    .lit ['{', '{'], reWsStar, .grp 2 reActionAlt, .opt blockTermGroupRE,
    .opt blockInterruptGroupRE, reWsStar, .lit ['}', '}']]

/-- extension.ts line 606:
`` /<code>([^<]+)<\/code>\s*\{\{\s*(execute|copy|open)(?:\s+(?:&#39;([^&]+)&#39;|([^\s}]+)))?(?:\s+(interrupt))?\s*\}\}/g `` -/
def inlineCmdRE : RE :=
  reCat [.lit "<code>".data, .grp 1 (rePlus (.cls (fun c => c != '<'))),
    .lit "</code>".data, reWsStar, .lit ['{', '{'], reWsStar, .grp 2 reActionAlt,
    .opt (.seq reWsPlus
      (.alt (reCat [.lit "&#39;".data, .grp 3 (rePlus (.cls (fun c => c != '&'))),
        .lit "&#39;".data])
            (.grp 4 (rePlus (.cls noWsBrace))))),
    .opt (.seq reWsPlus (.grp 5 (.lit "interrupt".data))),
    reWsStar, .lit ['}', '}']]

/-- extension.ts line 613:
`` /<code>([^<]+)<\/code>\s*\{\{\s*(note|info|tip|warning|danger|hint)\s*\}\}/g `` -/
def messageRE : RE :=
  reCat [.lit "<code>".data, .grp 1 (rePlus (.cls (fun c => c != '<'))),
    .lit "</code>".data, reWsStar, .lit ['{', '{'], reWsStar,
    .grp 2 (.alt (.lit "note".data) (.alt (.lit "info".data) (.alt (.lit "tip".data)
      (.alt (.lit "warning".data) (.alt (.lit "danger".data) (.lit "hint".data)))))),
    reWsStar, .lit ['}', '}']]

/-- Quote alternation `(?:&#39;|&quot;)` of the inline quiz pattern. -/
def ampQuoteRE : RE := .alt (.lit "&#39;".data) (.lit "&quot;".data)

/-- extension.ts line 627:
`` /<code>([^<]+)<\/code>\s*\{\{\s*quiz(?:\s+id=(?:&#39;|&quot;)([^&]+)(?:&#39;|&quot;))?(?:\s+answerKey=(?:&#39;|&quot;)([^&]+)(?:&#39;|&quot;))?\s*\}\}/g `` -/
def inlineQuizRE : RE :=
  reCat [.lit "<code>".data, .grp 1 (rePlus (.cls (fun c => c != '<'))),
    .lit "</code>".data, reWsStar, .lit ['{', '{'], reWsStar, .lit "quiz".data,
    .opt (reCat [reWsPlus, .lit "id=".data, ampQuoteRE,
      .grp 2 (rePlus (.cls (fun c => c != '&'))), ampQuoteRE]),
    .opt (reCat [reWsPlus, .lit "answerKey=".data, ampQuoteRE,
      .grp 3 (rePlus (.cls (fun c => c != '&'))), ampQuoteRE]),
    reWsStar, .lit ['}', '}']]

/-- extension.ts line 425: `` /`([^`]+)`/g `` (commands inside a block). -/
def backtickCmdRE : RE :=
  reCat [.lit ['`'], .grp 1 (rePlus (.cls (fun c => c != '`'))), .lit ['`']]

/-! ## String helpers of the pipeline -/

/-- Global literal replacement (JavaScript `replace(/lit/g, repl)` with a
fixed nonempty pattern `p0 :: pr`). -/
def replaceAllL (p0 : Char) (pr repl : List Char) : Nat → List Char → List Char
  | 0, s => s
  | _, [] => []
  | fuel + 1, c :: t =>
      if (p0 :: pr).isPrefixOf (c :: t) then
        repl ++ replaceAllL p0 pr repl fuel ((c :: t).drop (pr.length + 1))
      else c :: replaceAllL p0 pr repl fuel t

/-- String-level global literal replacement (every step consumes at least
one character, so `length + 1` fuel never runs out). -/
def jsReplaceAllLit (s pat repl : String) : String :=
  match pat.data with
  | [] => s
  | p0 :: pr => ⟨replaceAllL p0 pr repl.data (s.data.length + 1) s.data⟩

/-- `escapeHtml` of MDCLPreviewPanel (lines 1388–1397) and of
QuizProcessor: the five-character entity map (note `&#039;` with the
leading zero). -/
def escapeHtmlL : List Char → List Char
  | [] => []
  | c :: t =>
      (if c = '&' then "&amp;".data
       else if c = '<' then "&lt;".data
       else if c = '>' then "&gt;".data
       else if c = '"' then "&quot;".data
       else if c = '\'' then "&#039;".data
       else [c]) ++ escapeHtmlL t

/-- String-level `escapeHtml`. -/
def escapeHtml (s : String) : String := ⟨escapeHtmlL s.data⟩

/-- The entity-unescaping chain used by `createCommandButton` (lines
1301–1306) and the admonition/inline-quiz passes: `&quot; &#39; &lt; &gt;
&amp;` in that order. -/
def unescapeEntities (s : String) : String :=
  jsReplaceAllLit (jsReplaceAllLit (jsReplaceAllLit (jsReplaceAllLit
    (jsReplaceAllLit s "&quot;" "\"") "&#39;" "'") "&lt;" "<") "&gt;" ">") "&amp;" "&"

/-- `JSON.stringify` escaping for one character (the characters the
pipeline's command strings can contain; other control characters would be
`\u`-escaped but none of the embedded inputs use them). -/
def jsonEscapeChar (c : Char) : List Char :=
  if c = '"' then ['\\', '"']
  else if c = '\\' then ['\\', '\\']
  else if c = '\n' then ['\\', 'n']
  else if c = '\r' then ['\\', 'r']
  else if c = '\t' then ['\\', 't']
  else [c]

/-- `JSON.stringify` of a string value. -/
def jsonStr (s : String) : String :=
  ⟨'"' :: s.data.flatMap jsonEscapeChar ++ ['"']⟩

/-- `JSON.stringify(cmdObj)`: insertion-ordered fields `command`,
`action`, then `terminal` or `interrupt` when set (lines 492–507,
563–588, 1312–1334). -/
def cmdObjJson (command action : String) (terminal : Option String) (interrupt : Bool) :
    String :=
  "\x7b\"command\":" ++ jsonStr command ++ ",\"action\":" ++ jsonStr action
    ++ (match terminal with
        | some t => ",\"terminal\":" ++ jsonStr t
        | none => "")
    ++ (if interrupt then ",\"interrupt\":true" else "") ++ "\x7d"

/-! ## Quiz processor (`QuizProcessor`, quizProcessor.ts) -/

/-- Quiz kind: block quizzes are multiple-choice, inline quizzes are
free-text. -/
inductive QuizType where
  | multipleChoice : QuizType
  | textInput : QuizType
deriving DecidableEq

/-- One option of a multiple-choice quiz. -/
structure QuizOption where
  label : String
  text : String
deriving DecidableEq

/-- One parsed quiz question. -/
structure QuizQuestion where
  id : String
  question : String
  options : List QuizOption
  qtype : QuizType
  answerKey : Option String
deriving DecidableEq

/-- One `line.match(/^([A-Z])\)\s*(.+)$/)`: anchored at both ends.  The
greedy `\s*` backtracks one character when `(.+)` would otherwise be
empty, so a line such as `A)␣␣` still matches with a single-space text. -/
def matchOptionLine : List Char → Option (Char × List Char)
  | c :: ')' :: rest =>
      if 'A' ≤ c ∧ c ≤ 'Z' then
        if rest.isEmpty then none
        else
          let r := (rest.takeWhile jsWs).length
          let k := if r = rest.length then r - 1 else r
          some (c, rest.drop k)
      else none
  | _ => none

/-- `QuizProcessor.parseQuizBlock` (quizProcessor lines 10–47), threading
the auto-id counter; the counter advances only when a question is produced
without an explicit id (the postfix `++` sits inside the short-circuited
`||`). -/
def parseQuizBlock (qc : Nat) (content : String) (explicitId answerKey : Option String) :
    Option QuizQuestion × Nat :=
  let lines := ((splitNlL (jsTrim content).data).map (fun l => (⟨l⟩ : String))).filter
    (fun l => jsTrim l ≠ "")
  if lines.length < 2 then (none, qc)
  else
    let firstLine := lines.headD ""
    let question :=
      if firstLine.data.take 2 = ['Q', ':'] then jsTrim ⟨firstLine.data.drop 2⟩
      else firstLine
    let options := (lines.drop 1).filterMap (fun l =>
      (matchOptionLine l.data).map (fun p => QuizOption.mk ⟨[p.1]⟩ (jsTrim ⟨p.2⟩)))
    if options.length < 2 then (none, qc)
    else
      match explicitId with
      | some i => (some ⟨i, question, options, .multipleChoice, answerKey⟩, qc)
      | none => (some ⟨"quiz_" ++ toString qc, question, options, .multipleChoice, answerKey⟩,
          qc + 1)

/-- `QuizProcessor.parseInlineQuiz` (lines 49–59). -/
def parseInlineQuiz (qc : Nat) (question : String) (explicitId answerKey : Option String) :
    QuizQuestion × Nat :=
  match explicitId with
  | some i => (⟨i, question, [], .textInput, answerKey⟩, qc)
  | none => (⟨"quiz_" ++ toString qc, question, [], .textInput, answerKey⟩, qc + 1)

/-- `QuizProcessor.generateQuizHTML` (lines 61–118).  The template
literals' indentation whitespace is condensed to single newlines; every
tag, class, attribute and interpolation is kept. -/
def generateQuizHTML (quiz : QuizQuestion) : String :=
  let answerKeyAttr :=
    match quiz.answerKey with
    | some k => " data-answer-key=\"" ++ escapeHtml k ++ "\""
    | none => ""
  if quiz.qtype = .multipleChoice then
    let optionsHTML := String.join (quiz.options.map (fun o =>
      "\n<label class=\"quiz-option\">\n<input type=\"radio\" name=\"" ++ quiz.id
        ++ "\" value=\"" ++ o.label ++ "\" />\n<span class=\"option-label\">" ++ o.label
        ++ ")</span>\n<span class=\"option-text\">" ++ escapeHtml o.text
        ++ "</span>\n</label>\n"))
    "\n<div class=\"quiz-container\" data-quiz-id=\"" ++ quiz.id ++ "\"" ++ answerKeyAttr
      ++ ">\n<div class=\"quiz-question\">\n<span class=\"quiz-icon\">❔</span>\n"
      ++ escapeHtml quiz.question ++ "\n</div>\n<div class=\"quiz-options\">\n"
      ++ optionsHTML ++ "\n</div>\n<div class=\"quiz-actions\">\n<button class=\"quiz-check-btn\" data-quiz-id=\""
      ++ quiz.id ++ "\">Check Answer</button>\n<button class=\"quiz-show-btn\" data-quiz-id=\""
      ++ quiz.id ++ "\" style=\"display:none;\">Show Answer</button>\n<button class=\"quiz-reset-btn\" data-quiz-id=\""
      ++ quiz.id ++ "\" style=\"display:none;\">Try Again</button>\n</div>\n<div class=\"quiz-feedback\" id=\"feedback-"
      ++ quiz.id ++ "\"></div>\n</div>\n"
  else
    "\n<div class=\"quiz-container quiz-inline\" data-quiz-id=\"" ++ quiz.id ++ "\""
      ++ answerKeyAttr
      ++ ">\n<div class=\"quiz-question-inline\">\n<span class=\"quiz-icon\">❔</span>\n"
      ++ escapeHtml quiz.question
      ++ "\n</div>\n<div class=\"quiz-input-group\">\n<input type=\"text\" class=\"quiz-text-input\" id=\"input-"
      ++ quiz.id ++ "\" placeholder=\"Type your answer...\" />\n<button class=\"quiz-check-btn quiz-check-inline\" data-quiz-id=\""
      ++ quiz.id ++ "\">Check</button>\n</div>\n<div class=\"quiz-feedback-inline\" id=\"feedback-"
      ++ quiz.id ++ "\"></div>\n</div>\n"

/-! ## Button and admonition builders (extension.ts) -/

/-- `MDCLPreviewPanel.createCommandButton` (lines 1299–1344), threading
the id counter.  Returns the button markup and the advanced counter. -/
def createCommandButton (command action : String)
    (quotedTerminal unquotedTerminal interrupt : Option String)
    (executed : List String) (counter : Nat) : String × Nat :=
  let unescapedCommand := unescapeEntities command
  let (buttonClass, buttonText, terminal, intr) :=
    if action = "copy" then ("copy-btn", "Copy", (none : Option String), false)
    else if action = "open" then ("open-btn", "Open", none, false)
    else if action = "execute" then
      let terminal :=
        match quotedTerminal with
        | some q => some q
        | none => if unquotedTerminal ≠ some "interrupt" then unquotedTerminal else none
      match terminal with
      | some t => ("execute-btn", "Run in " ++ t, some t, false)
      | none =>
          if interrupt = some "interrupt" ∨ unquotedTerminal = some "interrupt" then
            ("execute-btn", "Interrupt & Run", none, true)
          else ("execute-btn", "Run", none, false)
    else ("execute-btn", "Run", none, false)
  let commandId := "cmd_" ++ toString counter
  let executedClass := if executed.contains commandId then " executed" else ""
  let json := jsReplaceAllLit (cmdObjJson unescapedCommand action terminal intr) "'" "&#39;"
  ("<code>" ++ escapeHtml unescapedCommand ++ "</code> <button class=\"" ++ buttonClass
    ++ executedClass ++ "\" data-command='" ++ json ++ "' data-command-id=\"" ++ commandId
    ++ "\">" ++ buttonText ++ "</button>", counter + 1)

/-- Per-line command button inside a marked code block (lines 551–597):
like `createCommandButton` but with NO entity unescaping, and `['"]`
quoting from the raw-text pattern. -/
def codeBlockLineButton (command action : String)
    (quotedTerminal unquotedTerminal interrupt : Option String)
    (executed : List String) (counter : Nat) : String × Nat :=
  let (buttonClass, buttonText, terminal, intr) :=
    if action = "copy" then ("copy-btn", "Copy", (none : Option String), false)
    else if action = "open" then ("open-btn", "Open", none, false)
    else if action = "execute" then
      let terminal :=
        match quotedTerminal with
        | some q => some q
        | none => if unquotedTerminal ≠ some "interrupt" then unquotedTerminal else none
      match terminal with
      | some t => ("execute-btn", "Run in " ++ t, some t, false)
      | none =>
          if interrupt = some "interrupt" ∨ unquotedTerminal = some "interrupt" then
            ("execute-btn", "Interrupt & Run", none, true)
          else ("execute-btn", "Run", none, false)
    else ("execute-btn", "Run", none, false)
  let commandId := "cmd_" ++ toString counter
  let executedClass := if executed.contains commandId then " executed" else ""
  let json := jsReplaceAllLit (cmdObjJson command action terminal intr) "'" "&#39;"
  ("<code>" ++ escapeHtml command ++ "</code> <button class=\"" ++ buttonClass
    ++ executedClass ++ "\" data-command='" ++ json ++ "' data-command-id=\"" ++ commandId
    ++ "\">" ++ buttonText ++ "</button>", counter + 1)

/-- `MDCLPreviewPanel.createMessageBox` (lines 1346–1386); the `label`
variable feeds only the stylesheet, not the markup. -/
def createMessageBox (message : String) (mtype : String) : String :=
  let (icon, className) :=
    if mtype = "note" then ("📝", "admonition admonition-note")
    else if mtype = "info" then ("ℹ️", "admonition admonition-info")
    else if mtype = "tip" ∨ mtype = "hint" then ("💡", "admonition admonition-tip")
    else if mtype = "warning" then ("⚠️", "admonition admonition-warning")
    else if mtype = "danger" then ("🔥", "admonition admonition-danger")
    else ("", "admonition")
  "<div class=\"" ++ className ++ "\" data-admonition-type=\"" ++ mtype
    ++ "\">\n<div class=\"admonition-content\">\n<span class=\"admonition-icon\">" ++ icon
    ++ "</span>\n<span class=\"admonition-text\">" ++ escapeHtml message
    ++ "</span>\n</div>\n</div>"

/-! ## The render pipeline (`MDCLPreviewPanel.getHtmlContent` + `update`) -/

/-- External collaborators of the pipeline: the `marked` markdown
converter (with its configured highlighter) and `highlight.js`. -/
structure ExternalEnv where
  md : String → String
  hlLang : String → Bool
  hl : String → String → String

/-- Render-relevant mutable panel fields threaded through one
`getHtmlContent` call, plus the supply of `Math.random()`-derived marker
suffixes (one is consumed per generated placeholder). -/
structure RenderSt where
  commandCounter : Nat
  quizCounter : Nat
  supply : List String
deriving DecidableEq

/-- One `` `PREFIX_${Math.random().toString(36).substr(2, 9)}` `` marker:
draw the next suffix from the supply. -/
def freshMarker (pre : String) (st : RenderSt) : String × RenderSt :=
  (pre ++ st.supply.headD "0", ⟨st.commandCounter, st.quizCounter, st.supply.tail⟩)

/-- Stored data of one block command (lines 439–445). -/
structure BlockData where
  commands : List String
  action : String
  terminal : Option String
  interrupt : Bool
  language : Option String

/-- Replacement markup of one "Run All" block (lines 486–535). -/
def blockButtonHtml (env : ExternalEnv) (executed : List String) (data : BlockData)
    (counter : Nat) : List Char × Nat :=
  let joined := String.intercalate " && " data.commands
  let cmdCommand := "eval \"" ++ jsReplaceAllLit joined "\"" "\\\"" ++ "\""
  let (terminal, interrupt, buttonText) :=
    if data.action = "execute" then
      match data.terminal with
      | some t =>
          if t ≠ "interrupt" then (some t, false, "Run All in " ++ t)
          else if data.interrupt then ((none : Option String), true, "Interrupt & Run All")
          else (none, false, "Run All")
      | none =>
          if data.interrupt then (none, true, "Interrupt & Run All")
          else (none, false, "Run All")
    else (none, false, "Run All")
  let displayCommands :=
    match data.language with
    | some lang =>
        let codeText := String.intercalate "\n" data.commands
        let l := if env.hlLang lang then lang else "plaintext"
        "<pre><code class=\"hljs language-" ++ l ++ "\">" ++ env.hl codeText l
          ++ "</code></pre>"
    | none =>
        String.join (data.commands.map (fun cmd =>
          "<div class=\"block-command-line\"><code>" ++ escapeHtml cmd ++ "</code></div>"))
  let commandId := "block_" ++ toString counter
  let executedClass := if executed.contains commandId then " executed" else ""
  let json := jsReplaceAllLit (cmdObjJson cmdCommand data.action terminal interrupt)
    "'" "&#39;"
  (("<div class=\"command-block\">\n" ++ displayCommands
    ++ "\n<div class=\"block-execute-btn-container\">\n<button class=\"execute-btn block-execute-btn"
    ++ executedClass ++ "\" data-command='" ++ json ++ "' data-command-id=\"" ++ commandId
    ++ "\">" ++ buttonText ++ "</button>\n</div>\n</div>").data, counter + 1)

/-- Replacement markup of one inline-command code block (lines 548–601):
per line, the first command match becomes a button, other lines are
escaped; lines are joined with `<br>`. -/
def codeBlockLinesHtml (executed : List String) (blockContent : List Char)
    (counter : Nat) : List Char × Nat :=
  let step := fun (acc : List (List Char) × Nat) (line : List Char) =>
    match reFind (reFuel line) codeLineCmdRE line 0 with
    | some (_, _, caps, _) =>
        let r := codeBlockLineButton ⟨(capGet caps 1).getD []⟩ ⟨(capGet caps 2).getD []⟩
          ((capGet caps 3).map (fun l => (⟨l⟩ : String)))
          ((capGet caps 4).map (fun l => (⟨l⟩ : String)))
          ((capGet caps 5).map (fun l => (⟨l⟩ : String))) executed acc.2
        (acc.1 ++ [r.1.data], r.2)
    | none => (acc.1 ++ [escapeHtmlL line], acc.2)
  let r := (splitNlL blockContent).foldl step ([], counter)
  (("<div class=\"command-block\">".data
      ++ (List.intercalate "<br>".data r.1) ++ "</div>".data, r.2))

/-- The quiz-block pre-extraction pass (lines 457–470): every matched
quiz fence either becomes a placeholder (with its rendered widget stored)
or — when `parseQuizBlock` rejects the block — is reinserted verbatim via
`return match`. -/
def quizBlockPass (d : List Char) (st : RenderSt) :
    List Char × RenderSt × List (String × String) :=
  reReplace (reFuel d) quizBlockRE
    (fun matched caps acc =>
      let quizId := (capGet caps 1).map (fun l => (⟨l⟩ : String))
      let answerKey := (capGet caps 2).map (fun l => (⟨l⟩ : String))
      let quizContent := (capGet caps 3).getD []
      let stq := acc.1
      let pq := parseQuizBlock stq.quizCounter ⟨quizContent⟩ quizId answerKey
      match pq.1 with
      | some quiz =>
          let (markerId, st') :=
            freshMarker "QUIZ_BLOCK_" ⟨stq.commandCounter, pq.2, stq.supply⟩
          (("```\n" ++ markerId ++ "\n```").data,
            (st', acc.2 ++ [(markerId, generateQuizHTML quiz)]))
      | none => (matched, (⟨stq.commandCounter, pq.2, stq.supply⟩, acc.2)))
    (d.length + 1) d (st, ([] : List (String × String)))

/-- The body of `MDCLPreviewPanel.getHtmlContent` (lines 403–640): the
placeholder passes over the raw text, the markdown conversion, the
placeholder substitutions, and the inline command / admonition / inline
quiz passes over the converted HTML.  Returns the html body (what the
source interpolates into its page template) and the advanced render
state. -/
def getHtmlBody (env : ExternalEnv) (executed : List String) (doc : String)
    (st : RenderSt) : String × RenderSt :=
  let d0 := doc.data
  -- Pass 1 (line 413): code blocks made of per-line commands → placeholders
  let r1 := reReplace (reFuel d0) codeBlockWithCommandsRE
    (fun _ caps acc =>
      let blockContent : List Char := (capGet caps 1).getD []
      let (blockId, st') := freshMarker "INLINE_CMD_BLOCK_" acc.1
      (("```\n" ++ blockId ++ "\n```").data, (st', acc.2 ++ [(blockId, blockContent)])))
    (d0.length + 1) d0 (st, ([] : List (String × List Char)))
  let p1 := r1.1
  let st1 := r1.2.1
  let inlineCommandBlocks := r1.2.2
  -- Pass 2 (line 422): block commands → placeholders plus stored data
  let r2 := reReplace (reFuel p1) blockCommandRE
    (fun _ caps acc =>
      let language := (capGet caps 1).map (fun l => (⟨l⟩ : String))
      let action := (((capGet caps 2).map (fun l => (⟨l⟩ : String)))).getD "execute"
      let quoted := (capGet caps 3).map (fun l => (⟨l⟩ : String))
      let unquoted := (capGet caps 4).map (fun l => (⟨l⟩ : String))
      let intr := (capGet caps 5 == some "interrupt".data)
        || (capGet caps 4 == some "interrupt".data)
      let blockContent := (capGet caps 6).getD []
      let cmds0 := (reFindAllCaps (reFuel blockContent) backtickCmdRE
          (blockContent.length + 1) blockContent).map
        (fun cs => (⟨(capGet cs 1).getD []⟩ : String))
      let commands :=
        if cmds0.isEmpty then
          (((splitNlL blockContent).map (fun l => (⟨l⟩ : String))).filter
            (fun l => jsTrim l ≠ "")).map jsTrim
        else cmds0
      let terminal := match quoted with
        | some q => some q
        | none => unquoted
      let (blockId, st') := freshMarker "MDCL_BLOCK_" acc.1
      (("```\n" ++ blockId ++ "\n```").data,
        (st', acc.2 ++ [(blockId, BlockData.mk commands action terminal intr language)])))
    (p1.length + 1) p1 (st1, ([] : List (String × BlockData)))
  let p2 := r2.1
  let st2 := r2.2.1
  let blockCommands := r2.2.2
  -- Pass 3 (line 461): quiz blocks → rendered widgets behind placeholders
  let r3 := quizBlockPass p2 st2
  let p3 := r3.1
  let st3 := r3.2.1
  let quizBlocks := r3.2.2
  -- Markdown conversion (line 473)
  let html0 := (env.md ⟨p3⟩).data
  -- Quiz placeholder substitution (line 476)
  let html1 := quizBlocks.foldl (fun h q =>
    (reReplace (reFuel h) (markerWrapRE q.1.data) (fun _ _ u => (q.2.data, u))
      (h.length + 1) h ()).1) html0
  -- Block command substitution (line 483), advancing the id counter
  let r5 := blockCommands.foldl (fun acc b =>
    reReplace (reFuel acc.1) (markerWrapRE b.1.data)
      (fun _ _ counter => blockButtonHtml env executed b.2 counter)
      (acc.1.length + 1) acc.1 acc.2) (html1, st3.commandCounter)
  -- Inline command block substitution (line 545)
  let r6 := inlineCommandBlocks.foldl (fun acc b =>
    reReplace (reFuel acc.1) (markerWrapRE b.1.data)
      (fun _ _ counter => codeBlockLinesHtml executed b.2 counter)
      (acc.1.length + 1) acc.1 acc.2) r5
  -- Inline command pass (line 608)
  let r7 := reReplace (reFuel r6.1) inlineCmdRE
    (fun _ caps counter =>
      let r := createCommandButton ⟨(capGet caps 1).getD []⟩ ⟨(capGet caps 2).getD []⟩
        ((capGet caps 3).map (fun l => (⟨l⟩ : String)))
        ((capGet caps 4).map (fun l => (⟨l⟩ : String)))
        ((capGet caps 5).map (fun l => (⟨l⟩ : String))) executed counter
      (r.1.data, r.2))
    (r6.1.length + 1) r6.1 r6.2
  -- Admonition pass (line 615)
  let r8 := reReplace (reFuel r7.1) messageRE
    (fun _ caps u =>
      ((createMessageBox (unescapeEntities ⟨(capGet caps 1).getD []⟩)
        ⟨(capGet caps 2).getD []⟩).data, u))
    (r7.1.length + 1) r7.1 ()
  -- Inline quiz pass (line 629), advancing the quiz counter
  let r9 := reReplace (reFuel r8.1) inlineQuizRE
    (fun _ caps qc =>
      let question := unescapeEntities ⟨(capGet caps 1).getD []⟩
      let pq := parseInlineQuiz qc question
        ((capGet caps 2).map (fun l => (⟨l⟩ : String)))
        ((capGet caps 3).map (fun l => (⟨l⟩ : String)))
      ((generateQuizHTML pq.1).data, pq.2))
    (r8.1.length + 1) r8.1 st3.quizCounter
  (⟨r9.1⟩, ⟨r7.2, r9.2, st3.supply⟩)

/-- Opening part of the page template around the body (extension.ts lines
641–1117): presentational CSS, abbreviated — constant bytes no claim
depends on. -/
def pageHead : String :=
  "<!DOCTYPE html>\n<html lang=\"en\">\n<head>\n<meta charset=\"UTF-8\">\n<title>CodeLab Preview</title>\n<style>/* stylesheet elided */</style>\n</head>\n<body>\n"

/-- Closing part of the page template (lines 1118–1296): the webview
script.  It is NOT constant — line 1122 interpolates the panel's saved
scroll position (`const savedScrollPosition = ${this.scrollPosition};`);
that interpolation is kept, the remaining constant script bytes are
elided. -/
def pageTail (scrollPosition : Int) : String :=
  "\n<script>\nconst vscode = acquireVsCodeApi();\nconst savedScrollPosition = "
    ++ toString scrollPosition
    ++ ";\n/* remainder of the webview interaction script elided */\n</script>\n</body>\n</html>"

/-- `MDCLPreviewPanel.getHtmlContent`: the body wrapped in the page
template, which reads the panel's `scrollPosition` field (line 1122). -/
def getHtmlContent (env : ExternalEnv) (executed : List String)
    (scrollPosition : Int) (doc : String) (st : RenderSt) : String × RenderSt :=
  let r := getHtmlBody env executed doc st
  (pageHead ++ r.1 ++ pageTail scrollPosition, r.2)

/-- Panel fields relevant to rendering and execution state. -/
structure PanelState where
  executedCommands : List String
  scrollPosition : Int
  commandCounter : Nat
  quizCounter : Nat
deriving DecidableEq

/-- Fresh panel (the private constructor, lines 209–224): empty executed
set, zero counters. -/
def initialPanelState : PanelState := ⟨[], 0, 0, 0⟩

/-- `MDCLPreviewPanel.update` (lines 387–401): reset both counters, then
regenerate the HTML.  The asynchronous answer-key load it also kicks off
only feeds the NEXT quiz-check message and does not touch the fields
modelled here. -/
def update (env : ExternalEnv) (supply : List String) (doc : String) (p : PanelState) :
    PanelState × String :=
  let r := getHtmlContent env p.executedCommands p.scrollPosition doc ⟨0, 0, supply⟩
  (⟨p.executedCommands, p.scrollPosition, r.2.commandCounter, r.2.quizCounter⟩, r.1)

/-- Webview messages handled by the panel (lines 282–325). -/
inductive WebviewMsg where
  | executeCommand (cmd : String) (commandId : Option String)
  | saveScrollPosition (pos : Int)
  | syncScrollFromPreview (pct : Int)
  | checkQuizAnswer (quizId : String) (answer : UserAnswer) (answerKey : Option String)

/-- `Set.prototype.add`. -/
def setAdd (l : List String) (x : String) : List String :=
  if l.contains x then l else l ++ [x]

/-- The webview message handler (lines 282–325): `executeCommand` with an
id marks the command executed and re-renders; scroll messages touch only
the scroll fields; `checkQuizAnswer` validates and replies without
touching render state. -/
def handleMessage (env : ExternalEnv) (supply : List String) (doc : String)
    (msg : WebviewMsg) (p : PanelState) : PanelState :=
  match msg with
  | .executeCommand _ commandId =>
      match commandId with
      | some cid =>
          let p' : PanelState :=
            ⟨setAdd p.executedCommands cid, p.scrollPosition, p.commandCounter, p.quizCounter⟩
          (update env supply doc p').1
      | none => p
  | .saveScrollPosition pos => ⟨p.executedCommands, pos, p.commandCounter, p.quizCounter⟩
  | .syncScrollFromPreview _ => p
  | .checkQuizAnswer _ _ _ => p

/-! ## Concrete instantiation of the external converter -/

/-- Escaping performed by `marked` inside code spans (`&#39;`, without the
leading zero of the extension's own `escapeHtml`). -/
def markedEscapeL : List Char → List Char
  | [] => []
  | c :: t =>
      (if c = '&' then "&amp;".data
       else if c = '<' then "&lt;".data
       else if c = '>' then "&gt;".data
       else if c = '"' then "&quot;".data
       else if c = '\'' then "&#39;".data
       else [c]) ++ markedEscapeL t

/-- A minimal code fence `` ```\n…``` ``. -/
def mdFenceRE : RE :=
  reCat [.lit "```".data, .lit ['\n'], .grp 1 (.star (.cls (fun c => c != '`'))),
    .lit "```".data]

/-- A backtick code span. -/
def mdSpanRE : RE :=
  reCat [.lit ['`'], .grp 1 (rePlus (.cls (fun c => c != '`'))), .lit ['`']]

/-- Modelled from the spec: the external markdown converter (spec §4.4
step 2 and §6; the `marked` library, which is not part of this
repository), restricted to the behaviour the embedded documents exercise —
a minimal code fence renders as a one-line `<pre><code>` block, a backtick
span renders as an entity-escaped `<code>` span, raw HTML and plain text
pass through. -/
def mdModel (s : String) : String :=
  let l1 := (reReplace (reFuel s.data) mdFenceRE
    (fun _ caps u => ("<pre><code>".data ++ (capGet caps 1).getD []
      ++ "</code></pre>".data, u))
    (s.data.length + 1) s.data ()).1
  let l2 := (reReplace (reFuel l1) mdSpanRE
    (fun _ caps u => ("<code>".data ++ markedEscapeL ((capGet caps 1).getD [])
      ++ "</code>".data, u))
    (l1.length + 1) l1 ()).1
  ⟨l2⟩

/-- Converter environment built on the modelled converter; the
highlighter recognises no language (plaintext pass-through). -/
def envModel : ExternalEnv := ⟨mdModel, fun _ => false, fun c _ => c⟩

/-- Identity converter environment (raw HTML passes through a markdown
converter unchanged; used where the document is already HTML). -/
def envId : ExternalEnv := ⟨fun s => s, fun _ => false, fun c _ => c⟩

/-- Scanner: every occurrence of the literal `l0 :: lr`, capturing the
following characters up to `stop`. -/
def scanAttr (l0 : Char) (lr : List Char) (stop : Char) : Nat → List Char → List String
  | 0, _ => []
  | _, [] => []
  | fuel + 1, c :: t =>
      if (l0 :: lr).isPrefixOf (c :: t) then
        let rest := (c :: t).drop (lr.length + 1)
        (⟨rest.takeWhile (fun x => x != stop)⟩ : String) :: scanAttr l0 lr stop fuel rest
      else scanAttr l0 lr stop fuel t

/-- The `data-command-id` attribute values of a rendered body, in order of
appearance. -/
def extractIds (s : String) : List String :=
  scanAttr 'd' "ata-command-id=\"".data '"' (s.data.length + 1) s.data

/-- The `<code>…</code>` span contents of a rendered body, in order of
appearance. -/
def extractCodes (s : String) : List String :=
  scanAttr '<' "code>".data '<' (s.data.length + 1) s.data

/-! ## Claim theorems about the render pipeline -/

/-- A one-command document, already in converted-HTML form. -/
def docOneInline : String := "<code>echo hi</code> \x7b\x7b execute \x7d\x7d"

/-- An inline command followed by a run-all block. -/
def docMixed : String :=
  "<code>a</code> \x7b\x7b execute \x7d\x7d\n```\x7b\x7b execute \x7d\x7d\nfoo\n```\n"

/-- Three inline commands. -/
def docThree : String :=
  "`npm install` \x7b\x7b execute \x7d\x7d\n`npm test` \x7b\x7b execute \x7d\x7d\n`npm build` \x7b\x7b copy \x7d\x7d"

/-- The same three commands after a whitespace-only edit (a blank line and
trailing spaces inserted). -/
def docThreeWs : String :=
  "`npm install` \x7b\x7b execute \x7d\x7d\n\n`npm test` \x7b\x7b execute \x7d\x7d  \n`npm build` \x7b\x7b copy \x7d\x7d\n"

/-- A quiz block with only one option line. -/
def docBadQuiz : String := "intro\n```quiz\nQ: 2+2?\nA) 3\n```\n"

/-- C1 (counterexample): `getHtmlContent` is NOT idempotent across two
successive direct calls with the same document and execution state: the
identifier counter is reset in `update`, not in `getHtmlContent`, so the
second call emits `cmd_1` where the first emitted `cmd_0` and the outputs
differ byte-wise. -/
theorem C1_counterexample :
    (getHtmlContent envId [] 0 docOneInline ⟨0, 0, []⟩).1
      ≠ (getHtmlContent envId [] 0 docOneInline
          ((getHtmlContent envId [] 0 docOneInline ⟨0, 0, []⟩).2)).1 := by
  decide

/-- C1 (amended): a render pass through `update` — which resets both
counters before calling `getHtmlContent` — is deterministic: its HTML
depends only on the document, the executed set, the saved scroll position
(interpolated into the page script at line 1122), the converter and the
marker supply, never on the panel's leftover counters; in particular two
successive `update` calls produce byte-identical HTML (an `update` leaves
the executed set and the scroll position unchanged). -/
theorem C1_update_deterministic (env : ExternalEnv) (supply : List String) (doc : String)
    (p q : PanelState) (h : p.executedCommands = q.executedCommands)
    (hs : p.scrollPosition = q.scrollPosition) :
    (update env supply doc p).2 = (update env supply doc q).2
    ∧ (update env supply doc (update env supply doc p).1).2
        = (update env supply doc p).2 := by
  constructor
  · simp only [update, h, hs]
  · rfl

/-- Witness for C1's amended theorem at concrete states differing only in
their leftover counters. -/
theorem C1_update_deterministic_witness :
    ((⟨["cmd_0"], 3, 7, 5⟩ : PanelState).executedCommands
        = (⟨["cmd_0"], 3, 0, 0⟩ : PanelState).executedCommands)
    ∧ ((⟨["cmd_0"], 3, 7, 5⟩ : PanelState).scrollPosition
        = (⟨["cmd_0"], 3, 0, 0⟩ : PanelState).scrollPosition)
    ∧ ((update envId [] docOneInline ⟨["cmd_0"], 3, 7, 5⟩).2
        = (update envId [] docOneInline ⟨["cmd_0"], 3, 0, 0⟩).2
    ∧ (update envId [] docOneInline (update envId [] docOneInline ⟨["cmd_0"], 3, 7, 5⟩).1).2
        = (update envId [] docOneInline ⟨["cmd_0"], 3, 7, 5⟩).2) :=
  ⟨rfl, rfl, C1_update_deterministic envId [] docOneInline _ _ rfl rfl⟩

/-- C2 (counterexample): identifiers are assigned in substitution-pass
order, not in document order across kinds: in `docMixed` the FIRST
interactive element in document order (the inline command) receives
identifier `cmd_1` while the second (the run-all block) receives
`block_0`, so identifier `N` does not refer to the `N`-th interactive
element in document order. -/
theorem C2_counterexample :
    extractIds (getHtmlBody envModel [] docMixed ⟨0, 0, ["r1"]⟩).1 = ["cmd_1", "block_0"]
    ∧ (["cmd_1", "block_0"] : List String) ≠ ["cmd_0", "block_1"] := by
  exact ⟨by decide, by decide⟩

/-- C2 (amended): the counter is reset to zero at the start of every
render pass (`update` is insensitive to leftover counter values), each
generated button advances the shared counter by exactly one, and for a
document whose interactive elements are all inline commands the
identifiers are `cmd_0 … cmd_(n-1)` in document order: re-rendering the
three-command document after a whitespace-only edit assigns `cmd_0`,
`cmd_1`, `cmd_2` to the same three commands in the same order. -/
theorem C2_sequential_ids :
    (∀ (env : ExternalEnv) (supply : List String) (doc : String) (p : PanelState)
       (c' q' : Nat),
      update env supply doc ⟨p.executedCommands, p.scrollPosition, c', q'⟩
        = update env supply doc p)
    ∧ (∀ (command action : String) (q u i : Option String) (ex : List String) (n : Nat),
        (createCommandButton command action q u i ex n).2 = n + 1)
    ∧ extractIds (getHtmlBody envModel [] docThree ⟨0, 0, []⟩).1
        = ["cmd_0", "cmd_1", "cmd_2"]
    ∧ extractIds (getHtmlBody envModel [] docThreeWs ⟨0, 0, []⟩).1
        = ["cmd_0", "cmd_1", "cmd_2"]
    ∧ extractCodes (getHtmlBody envModel [] docThree ⟨0, 0, []⟩).1
        = ["npm install", "npm test", "npm build"]
    ∧ extractCodes (getHtmlBody envModel [] docThreeWs ⟨0, 0, []⟩).1
        = ["npm install", "npm test", "npm build"] := by
  refine ⟨fun env supply doc p c' q' => rfl, fun command action q u i ex n => rfl,
    by decide, by decide, by decide, by decide⟩

/-- Number of lines of a quiz block body matching the option pattern
`^([A-Z])\)\s*(.+)$` (over the trimmed, blank-filtered lines the parser
scans). -/
def quizOptionLineCount (content : String) : Nat :=
  (((((splitNlL (jsTrim content).data).map (fun l => (⟨l⟩ : String))).filter
    (fun l => jsTrim l ≠ "")).filterMap (fun l => matchOptionLine l.data))).length

/-- A quiz block whose body has fewer than two option lines is rejected:
`parseQuizBlock` returns no question and leaves the counter unchanged. -/
theorem parseQuizBlock_reject (qc : Nat) (content : String)
    (explicitId answerKey : Option String)
    (h : quizOptionLineCount content < 2) :
    parseQuizBlock qc content explicitId answerKey = (none, qc) := by
  rw [parseQuizBlock]
  rw [quizOptionLineCount] at h
  set lines := (((splitNlL (jsTrim content).data).map (fun l => (⟨l⟩ : String))).filter
    (fun l => jsTrim l ≠ "")) with hl
  by_cases h2 : lines.length < 2
  · simp [h2]
  · rw [if_neg h2]
    have hlen : ((lines.drop 1).filterMap (fun l =>
        (matchOptionLine l.data).map
          (fun p => QuizOption.mk ⟨[p.1]⟩ (jsTrim ⟨p.2⟩)))).length < 2 := by
      have heq : ((lines.drop 1).filterMap (fun l =>
          (matchOptionLine l.data).map
            (fun p => QuizOption.mk ⟨[p.1]⟩ (jsTrim ⟨p.2⟩))))
          = ((lines.drop 1).filterMap (fun l => matchOptionLine l.data)).map
              (fun p => QuizOption.mk ⟨[p.1]⟩ (jsTrim ⟨p.2⟩)) := by
        rw [List.map_filterMap]
      have hsub : ((lines.drop 1).filterMap (fun l => matchOptionLine l.data)).length
          ≤ (lines.filterMap (fun l => matchOptionLine l.data)).length :=
        ((List.drop_sublist 1 lines).filterMap _).length_le
      calc ((lines.drop 1).filterMap (fun l =>
            (matchOptionLine l.data).map
              (fun p => QuizOption.mk ⟨[p.1]⟩ (jsTrim ⟨p.2⟩)))).length
          = ((lines.drop 1).filterMap (fun l => matchOptionLine l.data)).length := by
            rw [heq, List.length_map]
        _ ≤ (lines.filterMap (fun l => matchOptionLine l.data)).length := hsub
        _ < 2 := h
    rw [if_pos hlen]

/-- C8: a quiz block with fewer than two matching option lines yields no
question, and rendering such a document leaves the raw block in the
output: the quiz pass reinserts the block verbatim, the rendered body
contains no quiz widget, still shows the raw option text, and rendering
completes (it is a total function). -/
theorem C8_malformed_quiz (qc : Nat) (content : String)
    (explicitId answerKey : Option String)
    (h : quizOptionLineCount content < 2) :
    parseQuizBlock qc content explicitId answerKey = (none, qc)
    ∧ (quizBlockPass docBadQuiz.data ⟨0, 0, ["r1"]⟩).1 = docBadQuiz.data
    ∧ strContains (getHtmlBody envModel [] docBadQuiz ⟨0, 0, ["r1"]⟩).1 "quiz-container"
        = false
    ∧ strContains (getHtmlBody envModel [] docBadQuiz ⟨0, 0, ["r1"]⟩).1 "A) 3" = true :=
  ⟨parseQuizBlock_reject qc content explicitId answerKey h, by decide, by decide, by decide⟩

/-- Witness for C8 at the one-option block. -/
theorem C8_malformed_quiz_witness :
    (quizOptionLineCount "Q: 2+2?\nA) 3\n" < 2)
    ∧ (parseQuizBlock 0 "Q: 2+2?\nA) 3\n" none none = (none, 0)
    ∧ (quizBlockPass docBadQuiz.data ⟨0, 0, ["r1"]⟩).1 = docBadQuiz.data
    ∧ strContains (getHtmlBody envModel [] docBadQuiz ⟨0, 0, ["r1"]⟩).1 "quiz-container"
        = false
    ∧ strContains (getHtmlBody envModel [] docBadQuiz ⟨0, 0, ["r1"]⟩).1 "A) 3" = true) :=
  ⟨by decide, C8_malformed_quiz 0 "Q: 2+2?\nA) 3\n" none none (by decide)⟩

/-- C9: a render pass never modifies the executed-commands set — `update`
only reads it to decorate buttons; scroll and quiz-check messages leave it
unchanged; it grows exactly when an `executeCommand` message carrying a
command id arrives; and it is empty only at panel creation. -/
theorem C9_execution_state_frame (env : ExternalEnv) (supply : List String)
    (doc : String) (p : PanelState) :
    (update env supply doc p).1.executedCommands = p.executedCommands
    ∧ (∀ pos, (handleMessage env supply doc (.saveScrollPosition pos) p).executedCommands
        = p.executedCommands)
    ∧ (∀ pct, (handleMessage env supply doc (.syncScrollFromPreview pct) p).executedCommands
        = p.executedCommands)
    ∧ (∀ q a k, (handleMessage env supply doc (.checkQuizAnswer q a k) p).executedCommands
        = p.executedCommands)
    ∧ (∀ cmd, (handleMessage env supply doc (.executeCommand cmd none) p).executedCommands
        = p.executedCommands)
    ∧ (∀ cmd cid,
        (handleMessage env supply doc (.executeCommand cmd (some cid)) p).executedCommands
          = setAdd p.executedCommands cid)
    ∧ initialPanelState.executedCommands = [] :=
  ⟨rfl, fun _ => rfl, fun _ => rfl, fun _ _ _ => rfl, fun _ => rfl, fun _ _ => rfl, rfl⟩

end Codelab
